import Mathlib

set_option maxHeartbeats 1000000

/-!
Shallow embedding of the resource factory in `src/unnamed/part_000`
(C++ namespace `dmResource`, Defold engine).  Pure C++ helpers become Lean
functions; the stateful factory operations become explicit state-passing
functions on `SResourceFactory`, returning the mutated factory together with
a trace of observable events (handler destroy calls, reload-observer
invocations, transport accesses and log lines).  Machine integers are
modelled as `Nat`/`Int`; the 64-bit name hash `dmHashBuffer64` is an external
dlib primitive (out of scope per the spec) and is passed in as an arbitrary
function `hh : String → Nat`.  The dlib hash tables are external container
primitives; they are modelled as association lists with the standard
mapping semantics (`mget`/`mput`/`merase`).  Handler callbacks are injected
by clients; they are modelled as pure Lean functions carried inside the
registry entries (per the spec they must not re-enter the factory).
-/

namespace DefoldResource

/-- Byte strings (file/archive/HTTP payloads); each entry is one byte. -/
abbrev Bytes := List Nat

/-- Log severities, from `engine/dlib/src/dmsdk/dlib/log.h`
(`LOG_SEVERITY_*`).  `dmLogWarning` emits `.warning`, `dmLogError` emits
`.error`, etc. -/
inductive LogSeverity
  | debug
  | user_debug
  | info
  | warning
  | error
  | fatal
deriving DecidableEq, Repr

/-- `CreateResult` codes returned by handler create/recreate callbacks
(`CREATE_RESULT_*` in resource.h). -/
inductive CreateResult
  | ok
  | out_of_memory
  | format_error
  | constant_error
  | unknown
deriving DecidableEq, Repr

/-- `FactoryResult` codes (`FACTORY_RESULT_*` in resource.h). -/
inductive FactoryResult
  | ok
  | invalid
  | out_of_resources
  | already_registered
  | resource_not_found
  | missing_file_extension
  | unknown_resource_type
  | io_error
  | streambuffer_too_small
  | not_loaded
  | unknown
deriving DecidableEq, Repr

/-- `ReloadResult` codes (`RELOAD_RESULT_*` in resource.h). -/
inductive ReloadResult
  | ok
  | out_of_memory
  | format_error
  | constant_error
  | not_found
  | load_error
  | not_supported
  | unknown
deriving DecidableEq, Repr

/-- Result of `dmHttpClient::Get` as observed by `LoadResource`:
`RESULT_OK`, `RESULT_NOT_200_OK`, or any other failure code. -/
inductive HttpClientResult
  | ok
  | not_200_ok
  | other_failure
deriving DecidableEq, Repr

/-! ### Association-list maps

The dlib `dmHashTable` container is an external collaborator (spec §1:
"the hash and container primitives" are out of scope).  It is modelled as
an association list with first-match lookup; `Put` replaces the existing
entry or appends a fresh one, `Erase` removes the (unique) entry. -/

/-- `dmHashTable::Get`: first entry with the given key. -/
def mget {K V : Type} [DecidableEq K] : List (K × V) → K → Option V
  | [], _ => none
  | (k, v) :: rest, k' => if k = k' then some v else mget rest k'

/-- `dmHashTable::Put`: replace the entry for `k` in place, or append. -/
def mput {K V : Type} [DecidableEq K] : List (K × V) → K → V → List (K × V)
  | [], k, v => [(k, v)]
  | (k', v') :: rest, k, v =>
    if k' = k then (k, v) :: rest else (k', v') :: mput rest k v

/-- `dmHashTable::Erase`: remove the first entry with the given key. -/
def merase {K V : Type} [DecidableEq K] : List (K × V) → K → List (K × V)
  | [], _ => []
  | (k', v') :: rest, k =>
    if k' = k then rest else (k', v') :: merase rest k

theorem mget_mput_self {K V : Type} [DecidableEq K] (m : List (K × V)) (k : K) (v : V) :
    mget (mput m k v) k = some v := by
  induction m with
  | nil => simp [mget, mput]
  | cons p rest ih =>
    obtain ⟨k', v'⟩ := p
    by_cases h : k' = k
    · simp [mput, mget, h]
    · simp [mput, mget, h, ih]

theorem mget_mput_ne {K V : Type} [DecidableEq K] (m : List (K × V)) (k k' : K) (v : V)
    (h : k ≠ k') : mget (mput m k v) k' = mget m k' := by
  induction m with
  | nil => simp [mget, mput, h]
  | cons p rest ih =>
    obtain ⟨k₀, v₀⟩ := p
    by_cases h0 : k₀ = k
    · subst h0
      simp [mput, mget, h]
    · by_cases h1 : k₀ = k'
      · simp [mput, mget, h0, h1, Ne.symm h]
      · simp [mput, mget, h0, h1, ih]

theorem mput_mput_self {K V : Type} [DecidableEq K] (m : List (K × V)) (k : K) (v v' : V) :
    mput (mput m k v) k v' = mput m k v' := by
  induction m with
  | nil => simp [mput]
  | cons p rest ih =>
    obtain ⟨k₀, v₀⟩ := p
    by_cases h0 : k₀ = k
    · simp [mput, h0]
    · simp [mput, h0, ih]

theorem merase_mput_fresh {K V : Type} [DecidableEq K] (m : List (K × V)) (k : K) (v : V)
    (h : mget m k = none) : merase (mput m k v) k = m := by
  induction m with
  | nil => simp [mput, merase]
  | cons p rest ih =>
    obtain ⟨k₀, v₀⟩ := p
    by_cases h0 : k₀ = k
    · simp [mget, h0] at h
    · simp [mget, h0] at h
      simp [mput, merase, h0, ih h]

/-! ### Path canonicalizer (`GetCanonicalPath`) -/

/-- `RESOURCE_PATH_MAX` (line 56 of the source). -/
def RESOURCE_PATH_MAX : Nat := 1024

/-- The NUL character: initial value of `last_c` in `GetCanonicalPath`. -/
def nulChar : Char := Char.ofNat 0

/-- The slash-collapsing loop of `GetCanonicalPath`: a character is kept
when `c != '/' || (c == '/' && last_c != '/')`; `last_c` is updated to `c`
on every step. -/
def collapseAux : Char → List Char → List Char
  | _, [] => []
  | last, c :: rest =>
    if c ≠ '/' ∨ last ≠ '/' then c :: collapseAux c rest
    else collapseAux c rest

/-- `GetCanonicalPath(base_dir, relative_dir, buf)`:
`DM_SNPRINTF(buf, RESOURCE_PATH_MAX, "%s/%s", ...)` (which truncates to
`RESOURCE_PATH_MAX - 1` characters plus NUL) followed by the in-place
slash-collapsing loop.  Pure: no filesystem access. -/
def GetCanonicalPath (base_dir relative_dir : String) : String :=
  ⟨collapseAux nulChar
    ((base_dir.data ++ '/' :: relative_dir.data).take (RESOURCE_PATH_MAX - 1))⟩

/-! ### Data model -/

/-- `MAX_RESOURCE_TYPES` (line 58 of the source). -/
def MAX_RESOURCE_TYPES : Nat := 128

/-- `MAX_CALLBACKS` (line 59 of the source). -/
def MAX_CALLBACKS : Nat := 16

/-- `SResourceType`: one entry of the handler registry.  The `m_Context`
pointer is modelled as an opaque `Nat`; the create callback returns its
`CreateResult` together with the address it installs in
`descriptor.m_Resource` (an opaque `Nat`).  The destroy callback returns
nothing the factory reads, so only its presence is modelled; its invocation
is recorded as an `Event.destroy`.  Per spec §5 the callbacks must not
re-enter the factory, so they are pure functions of
`(context, buffer, size, name)`. -/
structure SResourceType where
  m_Extension : String
  m_Context : Nat
  m_CreateFunction : Nat → Bytes → Nat → String → CreateResult × Nat
  m_DestroyFunction : Option Unit
  m_RecreateFunction : Option (Nat → Bytes → Nat → String → CreateResult)

/-- `SResourceDescriptor` (resource.h): interned record.  `m_Resource` is the
opaque address installed by the create callback; `m_ResourceType` holds the
handler-registry index (the C code stores the `SResourceType*` pointer; the
index into `m_ResourceTypes` is its stable model). -/
structure SResourceDescriptor where
  m_NameHash : Nat
  m_Resource : Nat
  m_ResourceType : Nat
  m_ReferenceCount : Nat
deriving DecidableEq, Repr

/-- Observable events emitted by the factory operations: handler destroy
calls, reload-observer invocations (`(callback, user_data, name)`),
transport accesses, and log lines (severity plus an abbreviation of the
format string). -/
inductive Event
  | destroy (name_hash addr : Nat)
  | reloaded (callback user_data : Nat) (name : String)
  | archive_hit (name : String)
  | http_get (path : String)
  | fs_open (path : String)
  | log (severity : LogSeverity) (message : String)
deriving DecidableEq, Repr

/-- One HTTP GET exchange as driven by `dmHttpClient::Get`: the sequence of
`HttpHeader` callback invocations (`(status_code, key, value)`, with the
`Content-Length` value already passed through `strtol`), the sequence of
`HttpContent` chunks, and the final result of the GET. -/
structure HttpResponse where
  headerCalls : List (Int × String × Nat)
  chunks : List Bytes
  result : HttpClientResult

/-- A file as seen by the `fopen`/`fseek`/`ftell`/`fread` sequence in
`LoadResource`: `size` is what `ftell` reports, `content` is what a full
`fread` of `size` bytes actually yields (a length mismatch is a short
read). -/
structure FsFile where
  size : Nat
  content : Bytes

/-- The ambient filesystem: what `fopen(path, "rb")` finds. -/
structure FileSystem where
  fopen : String → Option FsFile

/-- `SResourceFactory`.  `m_BasePath` is `m_UriParts.m_Path`; the HTTP
client and the builtins archive are external collaborators modelled as
lookup functions (`none` when not configured, matching the null handles).
`m_StreamBuffer` tracks the valid prefix of the shared load buffer. -/
structure SResourceFactory where
  m_Resources : List (Nat × SResourceDescriptor)
  m_ResourceToHash : List (Nat × Nat)
  m_ResourceHashToFilename : Option (List (Nat × String))
  m_ResourceReloadedCallbacks : Option (List (Nat × Nat))
  m_ResourceTypes : List SResourceType
  m_BasePath : String
  m_HttpClient : Option (String → HttpResponse)
  m_BuiltinsArchive : Option (String → Option Bytes)
  m_StreamBuffer : Bytes
  m_StreamBufferSize : Nat
  m_HttpContentLength : Nat
  m_HttpTotalBytesStreamed : Nat
  m_HttpStatus : Int
  m_HttpFactoryResult : FactoryResult

/-- `FindResourceType`: linear scan over the registry; returns the index of
the first entry with the given extension together with the entry (the C
function returns the entry's address). -/
def FindResourceType : List SResourceType → String → Option (Nat × SResourceType)
  | [], _ => none
  | rt :: rest, extension =>
    if rt.m_Extension = extension then some (0, rt)
    else (FindResourceType rest extension).map (fun p => (p.1 + 1, p.2))

/-- The extension of `name`: `strrchr(name, '.')` advanced past the dot —
the characters after the last `'.'`, or `none` when there is no dot. -/
def afterLastDot : List Char → Option (List Char)
  | [] => none
  | c :: rest =>
    match afterLastDot rest with
    | some e => some e
    | none => if c = '.' then some rest else none

/-! ### Handler registry (`RegisterType`) -/

/-- `RegisterType` (lines 389–419): full registry → `OutOfResources`;
extension containing `'.'` → `Invalid`; absent create or destroy callback →
`Invalid`; extension already present → `AlreadyRegistered`; otherwise the
entry is appended. -/
def RegisterType (f : SResourceFactory) (extension : String) (context : Nat)
    (create_function : Option (Nat → Bytes → Nat → String → CreateResult × Nat))
    (destroy_function : Option Unit)
    (recreate_function : Option (Nat → Bytes → Nat → String → CreateResult)) :
    FactoryResult × SResourceFactory :=
  if f.m_ResourceTypes.length = MAX_RESOURCE_TYPES then
    (.out_of_resources, f)
  else if extension.data.contains '.' then
    (.invalid, f)
  else
    match create_function, destroy_function with
    | some create, some d =>
      if (FindResourceType f.m_ResourceTypes extension).isSome then
        (.already_registered, f)
      else
        (.ok, { f with m_ResourceTypes := f.m_ResourceTypes ++
            [{ m_Extension := extension, m_Context := context,
               m_CreateFunction := create, m_DestroyFunction := some d,
               m_RecreateFunction := recreate_function }] })
    | _, _ => (.invalid, f)

/-! ### Transport loader (`LoadResource`) -/

/-- The `HttpHeader` callback (lines 144–153): records the status code on
every call and captures `Content-Length`. -/
def httpHeaderStep (f : SResourceFactory) (call : Int × String × Nat) : SResourceFactory :=
  let f := { f with m_HttpStatus := call.1 }
  if call.2.1 = "Content-Length" then { f with m_HttpContentLength := call.2.2 } else f

/-- The `HttpContent` callback (lines 155–169): drop the chunk and record
`StreamBufferTooSmall` when it does not fit, else append it. -/
def httpContentStep (f : SResourceFactory) (chunk : Bytes) : SResourceFactory :=
  if f.m_StreamBufferSize - f.m_HttpTotalBytesStreamed < chunk.length then
    { f with m_HttpFactoryResult := .streambuffer_too_small }
  else
    { f with
      m_StreamBuffer := f.m_StreamBuffer.take f.m_HttpTotalBytesStreamed ++ chunk,
      m_HttpTotalBytesStreamed := f.m_HttpTotalBytesStreamed + chunk.length }

/-- The HTTP branch of `LoadResource` (lines 446–489): reset the HTTP load
state, run the GET (header callbacks, then content callbacks), then map the
outcome.  A failed GET maps `404 → ResourceNotFound` (after an error log)
and anything else to `IoError`; a content-callback overflow is returned; a
`Content-Length`/streamed mismatch is logged via `dmLogError` but the load
still returns Ok with the streamed byte count.  `httpAfterCallbacks` is the
factory state once the GET's header and content callbacks have run (lines
449–455). -/
def httpAfterCallbacks (f : SResourceFactory) (resp : HttpResponse) : SResourceFactory :=
  let f := { f with m_HttpContentLength := 0, m_HttpTotalBytesStreamed := 0,
                    m_HttpFactoryResult := FactoryResult.ok, m_HttpStatus := -1 }
  resp.chunks.foldl httpContentStep (resp.headerCalls.foldl httpHeaderStep f)

/-- The HTTP branch of `LoadResource`, after the GET's callbacks have run. -/
def loadViaHttp (f : SResourceFactory) (client : String → HttpResponse) (path : String) :
    FactoryResult × Nat × SResourceFactory × List Event :=
  let resp := client path
  let f := httpAfterCallbacks f resp
  if resp.result ≠ HttpClientResult.ok then
    if f.m_HttpStatus = 404 then
      (.resource_not_found, 0, f,
        [Event.http_get path, Event.log .error "Resource not found"])
    else
      (.io_error, 0, f,
        [Event.http_get path, Event.log .error "Resource not found"] ++
          (if resp.result = HttpClientResult.not_200_ok then
            [Event.log .warning "Unexpected http status code"] else []))
  else if f.m_HttpFactoryResult ≠ FactoryResult.ok then
    (f.m_HttpFactoryResult, 0, f, [Event.http_get path])
  else
    (.ok, f.m_HttpTotalBytesStreamed,
      { f with m_StreamBuffer := f.m_StreamBuffer.take f.m_HttpTotalBytesStreamed ++ [0] },
      [Event.http_get path] ++
        (if f.m_HttpContentLength ≠ f.m_HttpTotalBytesStreamed then
          [Event.log .error "Expected content length differs from actually streamed"] else []) ++
        (if f.m_HttpTotalBytesStreamed + 1 ≥ f.m_StreamBufferSize then
          [Event.log .error "Resource too large for streambuffer"] else []))

/-- The filesystem branch of `LoadResource` (lines 490–525).  The
out-parameter `resource_size` is assigned `file_size` before the size check,
so it is returned on every path after a successful `fopen`.  On a short read
the buffer holds the partial content (the stale tail is not tracked). -/
def loadViaFile (env : FileSystem) (f : SResourceFactory) (path : String) :
    FactoryResult × Nat × SResourceFactory × List Event :=
  match env.fopen path with
  | none =>
    (.resource_not_found, 0, f,
      [Event.fs_open path, Event.log .error "Resource not found"])
  | some file =>
    if file.size + 1 ≥ f.m_StreamBufferSize then
      (.streambuffer_too_small, file.size, f,
        [Event.fs_open path, Event.log .error "Resource too large for streambuffer"])
    else if file.content.length ≠ file.size then
      (.io_error, file.size, { f with m_StreamBuffer := file.content },
        [Event.fs_open path])
    else
      (.ok, file.size, { f with m_StreamBuffer := file.content ++ [0] },
        [Event.fs_open path])

/-- The fallthrough after the archive block (line 445 "NOTE: No else if
here. Fall through"): HTTP when a client is configured, else filesystem. -/
def loadFallthrough (env : FileSystem) (f : SResourceFactory) (path : String) :
    FactoryResult × Nat × SResourceFactory × List Event :=
  match f.m_HttpClient with
  | some client => loadViaHttp f client path
  | none => loadViaFile env f path

/-- `LoadResource` (lines 421–525): consult the builtins archive by
`original_name` first; a hit is served from the archive (copy plus trailing
NUL, or `StreamBufferTooSmall` when `size + 1 >= m_StreamBufferSize`); a
miss or an absent archive falls through to HTTP/filesystem. -/
def LoadResource (env : FileSystem) (f : SResourceFactory) (path original_name : String) :
    FactoryResult × Nat × SResourceFactory × List Event :=
  match f.m_BuiltinsArchive with
  | some findEntry =>
    match findEntry original_name with
    | some bytes =>
      if bytes.length + 1 ≥ f.m_StreamBufferSize then
        (.streambuffer_too_small, 0, f,
          [Event.archive_hit original_name,
           Event.log .error "Resource too large for streambuffer"])
      else
        (.ok, bytes.length, { f with m_StreamBuffer := bytes ++ [0] },
          [Event.archive_hit original_name])
    | none => loadFallthrough env f path
  | none => loadFallthrough env f path

/-! ### Acquire (`Get`) / `Release` -/

/-- `Get` (lines 527–616): canonicalize, hash, table hit increments the
reference count in place and returns the stored address; on a miss the
extension selects the handler, `LoadResource` fills the stream buffer, the
create callback runs, and only on `CREATE_RESULT_OK` is the descriptor
interned in `m_Resources`, `m_ResourceToHash` and (when reload support is
on) `m_ResourceHashToFilename`.  Any create failure is collapsed to
`FACTORY_RESULT_UNKNOWN` (line 608).  The out-parameter `*resource` is `0`
except on success. -/
def Get (hh : String → Nat) (env : FileSystem) (f : SResourceFactory) (name : String) :
    FactoryResult × Nat × SResourceFactory × List Event :=
  let canonical_path := GetCanonicalPath f.m_BasePath name
  let canonical_path_hash := hh canonical_path
  match mget f.m_Resources canonical_path_hash with
  | some rd =>
    let rd' := { rd with m_ReferenceCount := rd.m_ReferenceCount + 1 }
    (.ok, rd.m_Resource,
      { f with m_Resources := mput f.m_Resources canonical_path_hash rd' }, [])
  | none =>
    match afterLastDot name.data with
    | none =>
      (.missing_file_extension, 0, f, [Event.log .warning "Missing file extension"])
    | some extChars =>
      match FindResourceType f.m_ResourceTypes ⟨extChars⟩ with
      | none =>
        (.unknown_resource_type, 0, f, [Event.log .error "Unknown resource type"])
      | some idxType =>
        let L := LoadResource env f canonical_path name
        if L.1 ≠ FactoryResult.ok then (L.1, 0, L.2.2.1, L.2.2.2)
        else
          let resource_type := idxType.2
          let C := resource_type.m_CreateFunction resource_type.m_Context
                      L.2.2.1.m_StreamBuffer L.2.1 name
          if C.1 = CreateResult.ok then
            let d : SResourceDescriptor :=
              { m_NameHash := canonical_path_hash, m_Resource := C.2,
                m_ResourceType := idxType.1, m_ReferenceCount := 1 }
            (.ok, C.2,
              { L.2.2.1 with
                m_Resources := mput L.2.2.1.m_Resources canonical_path_hash d,
                m_ResourceToHash := mput L.2.2.1.m_ResourceToHash C.2 canonical_path_hash,
                m_ResourceHashToFilename := L.2.2.1.m_ResourceHashToFilename.map
                  (fun tbl => mput tbl canonical_path_hash canonical_path) },
              L.2.2.2)
          else
            (.unknown, 0, L.2.2.1,
              L.2.2.2 ++ [Event.log .warning "Unable to create resource"])

/-- `Release` (lines 738–763).  The three `assert`s (unknown address,
missing descriptor, zero reference count) and the `assert(s)` on the
filename entry are modelled as `none` (the process dies).  When the count
drops to 0 the destroy callback runs first (recorded as an event), then the
entry is erased from all tables. -/
def Release (f : SResourceFactory) (resource : Nat) :
    Option (SResourceFactory × List Event) :=
  match mget f.m_ResourceToHash resource with
  | none => none
  | some resource_hash =>
    match mget f.m_Resources resource_hash with
    | none => none
    | some rd =>
      if rd.m_ReferenceCount = 0 then none
      else if rd.m_ReferenceCount - 1 = 0 then
        let f' := { f with
          m_ResourceToHash := merase f.m_ResourceToHash resource,
          m_Resources := merase f.m_Resources resource_hash }
        match f.m_ResourceHashToFilename with
        | none => some (f', [Event.destroy resource_hash rd.m_Resource])
        | some tbl =>
          match mget tbl resource_hash with
          | none => none
          | some _ =>
            some ({ f' with m_ResourceHashToFilename := some (merase tbl resource_hash) },
              [Event.destroy resource_hash rd.m_Resource])
      else
        let rd' := { rd with m_ReferenceCount := rd.m_ReferenceCount - 1 }
        some ({ f with m_Resources := mput f.m_Resources resource_hash rd' }, [])

/-! ### Reload engine (`ReloadResource`) -/

/-- The switch at lines 657–664 mapping `CreateResult` variants to
`ReloadResult` variants (used only on failure; `ok` never reaches it). -/
def reloadResultOfCreate : CreateResult → ReloadResult
  | .ok => .ok
  | .out_of_memory => .out_of_memory
  | .format_error => .format_error
  | .constant_error => .constant_error
  | .unknown => .unknown

/-- `ReloadResource` (lines 618–666): canonicalize, hash, lookup (miss →
`NotFound`), reject handlers without a recreate callback (`NotSupported`),
load (failure → `LoadError`), recreate in place, and on success notify every
registered observer in registration order with the caller's `name`.  The
recreate callback mutates the typed object behind `rd.m_Resource` in place;
the tables are never touched.  A dangling `m_ResourceType` link (impossible
in states built by the factory, where it is a registry index) is `none`. -/
def ReloadResource (hh : String → Nat) (env : FileSystem) (f : SResourceFactory)
    (name : String) :
    Option (ReloadResult × Option SResourceDescriptor × SResourceFactory × List Event) :=
  let canonical_path := GetCanonicalPath f.m_BasePath name
  let canonical_path_hash := hh canonical_path
  match mget f.m_Resources canonical_path_hash with
  | none => some (.not_found, none, f, [])
  | some rd =>
    match f.m_ResourceTypes.get? rd.m_ResourceType with
    | none => none
    | some resource_type =>
      match resource_type.m_RecreateFunction with
      | none => some (.not_supported, some rd, f, [])
      | some recreate =>
        let L := LoadResource env f canonical_path name
        if L.1 ≠ FactoryResult.ok then some (.load_error, some rd, L.2.2.1, L.2.2.2)
        else
          let f₁ := L.2.2.1
          match recreate resource_type.m_Context f₁.m_StreamBuffer L.2.1 name with
          | .ok =>
            some (.ok, some rd, f₁,
              L.2.2.2 ++ (f₁.m_ResourceReloadedCallbacks.getD []).map
                (fun p => Event.reloaded p.1 p.2 name))
          | .out_of_memory => some (.out_of_memory, some rd, f₁, L.2.2.2)
          | .format_error => some (.format_error, some rd, f₁, L.2.2.2)
          | .constant_error => some (.constant_error, some rd, f₁, L.2.2.2)
          | .unknown => some (.unknown, some rd, f₁, L.2.2.2)

/-- `RegisterResourceReloadedCallback` (lines 765–781): push unless the
bounded (16-entry) observer list is full, in which case a warning is logged
and the registration is dropped. -/
def RegisterResourceReloadedCallback (f : SResourceFactory) (callback user_data : Nat) :
    SResourceFactory × List Event :=
  match f.m_ResourceReloadedCallbacks with
  | none => (f, [])
  | some cbs =>
    if cbs.length < MAX_CALLBACKS then
      ({ f with m_ResourceReloadedCallbacks := some (cbs ++ [(callback, user_data)]) }, [])
    else
      (f, [Event.log .warning "Resource reloaded callback registry full"])

/-- One run of the `UnregisterResourceReloadedCallback` loop (lines
787–801) with the dmArray `EraseSwap` semantics: a matching entry at the
current slot is replaced by the array's **last** element (which is then
re-examined at the same slot) and the size shrinks; a non-matching entry
advances the slot.  The fuel argument is the initial array size: the C loop
runs at most `size` iterations, since `size - i` strictly decreases on
every iteration. -/
def eraseSwapRun (callback user_data : Nat) : Nat → List (Nat × Nat) → List (Nat × Nat)
  | 0, l => l
  | _ + 1, [] => []
  | fuel + 1, x :: rest =>
    if x = (callback, user_data) then
      match rest.getLast? with
      | none => []
      | some last => eraseSwapRun callback user_data fuel (last :: rest.dropLast)
    else x :: eraseSwapRun callback user_data fuel rest

/-- `UnregisterResourceReloadedCallback` (lines 783–803): remove every pair
matching both fields via erase-swap iteration.  Erase-swap moves the last
entry into the freed slot, so a removal can reorder the remaining
observers. -/
def UnregisterResourceReloadedCallback (f : SResourceFactory) (callback user_data : Nat) :
    SResourceFactory :=
  match f.m_ResourceReloadedCallbacks with
  | none => f
  | some cbs =>
    { f with m_ResourceReloadedCallbacks := some (eraseSwapRun callback user_data cbs.length cbs) }

/-! ### Iteration helpers and observability predicates -/

/-- `N` successive `Get` calls on the same name, collecting the
`(result, resource)` pairs. -/
def getN (hh : String → Nat) (env : FileSystem) (name : String) :
    Nat → SResourceFactory → SResourceFactory × List (FactoryResult × Nat)
  | 0, f => (f, [])
  | Nat.succ k, f =>
    let G := Get hh env f name
    let R := getN hh env name k G.2.2.1
    (R.1, (G.1, G.2.1) :: R.2)

/-- `N` successive `Release` calls on the same handle, collecting events;
`none` as soon as one release hits an assertion. -/
def releaseN (resource : Nat) : Nat → SResourceFactory → Option (SResourceFactory × List Event)
  | 0, f => some (f, [])
  | Nat.succ k, f =>
    match Release f resource with
    | none => none
    | some fe =>
      match releaseN resource k fe.1 with
      | none => none
      | some fe' => some (fe'.1, fe.2 ++ fe'.2)

/-- `hash_to_filename` has no entry for `h` (vacuously when reload support
is off and the table does not exist). -/
def filenameFresh (f : SResourceFactory) (h : Nat) : Bool :=
  match f.m_ResourceHashToFilename with
  | none => true
  | some tbl => (mget tbl h).isNone

/-- The three intern tables of a factory, as one tuple (the footprint of the
frame claims). -/
def tables (f : SResourceFactory) :
    List (Nat × SResourceDescriptor) × List (Nat × Nat) × Option (List (Nat × String)) :=
  (f.m_Resources, f.m_ResourceToHash, f.m_ResourceHashToFilename)

/-- Is this event a reload-observer invocation? -/
def Event.isReloaded : Event → Bool
  | .reloaded _ _ _ => true
  | _ => false

/-- Is this event a destroy-callback invocation? -/
def Event.isDestroy : Event → Bool
  | .destroy _ _ => true
  | _ => false

/-- Is this event a warning-severity log line? -/
def Event.isWarningLog : Event → Bool
  | .log .warning _ => true
  | _ => false

/-- Is this event a transport access (archive lookup hit, HTTP GET, or
filesystem open)? -/
def Event.isTransport : Event → Bool
  | .archive_hit _ => true
  | .http_get _ => true
  | .fs_open _ => true
  | _ => false

/-! ### Spec-side definitions (used to state refinement/amended claims) -/

/-- Modelled from the spec: "base + \"/\" + rel with all runs of `/`
collapsed to one" — an independent look-ahead formulation of run
collapsing, to compare with the look-behind loop of `GetCanonicalPath`. -/
def collapseSpec : List Char → List Char
  | [] => []
  | [c] => [c]
  | a :: b :: rest =>
    if a = '/' ∧ b = '/' then collapseSpec (b :: rest)
    else a :: collapseSpec (b :: rest)

/-- Does `p` occur at the start of `s`? -/
def leadsWith : List Char → List Char → Bool
  | [], _ => true
  | _ :: _, [] => false
  | a :: as, b :: bs => a == b && leadsWith as bs

/-- `strip(base)` from the spec's idempotence property: remove `base` from
the front of `s` when it occurs there. -/
def stripBase (base s : String) : String :=
  if leadsWith base.data s.data then ⟨s.data.drop base.data.length⟩ else s

/-- `s` contains no two consecutive slashes. -/
def noDoubleSlash : List Char → Bool
  | [] => true
  | [_] => true
  | a :: b :: rest => !(a == '/' && b == '/') && noDoubleSlash (b :: rest)

/-- Modelled from the spec sentences of C8 as amended: the checks of
`register_type`, in the order the code performs them (capacity first, then
argument validity, then duplicate extension). -/
def registerTypeSpecResult (f : SResourceFactory) (extension : String)
    (create_function : Option (Nat → Bytes → Nat → String → CreateResult × Nat))
    (destroy_function : Option Unit) : FactoryResult :=
  if f.m_ResourceTypes.length = MAX_RESOURCE_TYPES then .out_of_resources
  else if extension.data.contains '.' || create_function.isNone || destroy_function.isNone then
    .invalid
  else if (FindResourceType f.m_ResourceTypes extension).isSome then .already_registered
  else .ok

/-! ### Concrete fixtures (used by witnesses and counterexamples) -/

/-- A concrete stand-in for `dmHashBuffer64` in witnesses (any function is
admissible; the theorems quantify over the hash). -/
def hh0 : String → Nat := fun s => s.length

/-- A create callback that succeeds and installs address 7. -/
def cf0 : Nat → Bytes → Nat → String → CreateResult × Nat := fun _ _ _ _ => (.ok, 7)

/-- A create callback that fails with `FORMAT_ERROR`. -/
def cfFail : Nat → Bytes → Nat → String → CreateResult × Nat :=
  fun _ _ _ _ => (.format_error, 0)

/-- A recreate callback that succeeds. -/
def rec0 : Nat → Bytes → Nat → String → CreateResult := fun _ _ _ _ => .ok

/-- A recreate callback that fails with `FORMAT_ERROR`. -/
def recFail : Nat → Bytes → Nat → String → CreateResult := fun _ _ _ _ => .format_error

/-- A `txt` handler without a recreate callback. -/
def rt0 : SResourceType :=
  { m_Extension := "txt", m_Context := 0, m_CreateFunction := cf0,
    m_DestroyFunction := some (), m_RecreateFunction := none }

/-- A `txt` handler with a recreate callback. -/
def rtR : SResourceType := { rt0 with m_RecreateFunction := some rec0 }

/-- A `txt` handler whose recreate callback fails. -/
def rtRF : SResourceType := { rt0 with m_RecreateFunction := some recFail }

/-- A `txt` handler whose create callback fails. -/
def rtCF : SResourceType := { rt0 with m_CreateFunction := cfFail }

/-- A filesystem with one file, `/tmp/data/a.txt` containing `"hello"`. -/
def env0 : FileSystem :=
  ⟨fun p => if p = "/tmp/data/a.txt" then some ⟨5, [104, 101, 108, 108, 111]⟩ else none⟩

/-- An empty `file://`-scheme factory over `/tmp/data` with reload support,
one registered `txt` handler, and a 100-byte stream buffer. -/
def f0 : SResourceFactory :=
  { m_Resources := [], m_ResourceToHash := [], m_ResourceHashToFilename := some [],
    m_ResourceReloadedCallbacks := some [], m_ResourceTypes := [rt0],
    m_BasePath := "/tmp/data", m_HttpClient := none, m_BuiltinsArchive := none,
    m_StreamBuffer := [], m_StreamBufferSize := 100,
    m_HttpContentLength := 0, m_HttpTotalBytesStreamed := 0,
    m_HttpStatus := -1, m_HttpFactoryResult := .ok }

/-- The descriptor of `/tmp/data/a.txt` under `hh0` (hash 15, address 7,
handler index 0, one reference). -/
def d0 : SResourceDescriptor :=
  { m_NameHash := 15, m_Resource := 7, m_ResourceType := 0, m_ReferenceCount := 1 }

/-- `f0` with `a.txt` interned, handlers without recreate. -/
def f6 : SResourceFactory :=
  { f0 with m_Resources := [(15, d0)], m_ResourceToHash := [(7, 15)],
            m_ResourceHashToFilename := some [(15, "/tmp/data/a.txt")] }

/-- `f6` but with the recreate-capable handler. -/
def f7 : SResourceFactory := { f6 with m_ResourceTypes := [rtR] }

/-- The factory `ReloadResource` leaves behind after a successful reload of
`a.txt` from `env0` starting at `f7`: only the stream buffer changed. -/
def fz7 : SResourceFactory :=
  { f7 with m_StreamBuffer := [104, 101, 108, 108, 111, 0] }

/-- A factory whose handler registry is full (128 entries). -/
def fFull : SResourceFactory :=
  { f0 with m_ResourceTypes := List.replicate 128 rt0 }

/-- `f0` with the failing-create handler. -/
def fCF : SResourceFactory := { f0 with m_ResourceTypes := [rtCF] }

/-- `f6` with the failing-recreate handler. -/
def fRF : SResourceFactory := { f6 with m_ResourceTypes := [rtRF] }

/-- An archive holding `a.txt` with two bytes. -/
def af4 : String → Option Bytes := fun n => if n = "a.txt" then some [9, 9] else none

/-- `f0` plus the small archive `af4`. -/
def f4 : SResourceFactory := { f0 with m_BuiltinsArchive := some af4 }

/-- An archive holding `a.txt` with eight bytes. -/
def af3 : String → Option Bytes :=
  fun n => if n = "a.txt" then some [1, 2, 3, 4, 5, 6, 7, 8] else none

/-- A factory with the 8-byte archive entry but only a 4-byte stream
buffer: the archive hit cannot be served. -/
def f3 : SResourceFactory :=
  { f0 with m_BuiltinsArchive := some af3, m_StreamBufferSize := 4 }

/-- An HTTP exchange announcing `Content-Length: 10` but streaming only the
five bytes of `"hello"`, completing without a GET error. -/
def client7 : String → HttpResponse :=
  fun _ => { headerCalls := [((200 : Int), "Content-Length", 10)],
             chunks := [[104, 101, 108, 108, 111]], result := .ok }

/-- `f0` loading over HTTP via `client7`. -/
def f8 : SResourceFactory := { f0 with m_HttpClient := some client7 }

/-- An HTTP exchange that fails with status 404. -/
def client404 : String → HttpResponse :=
  fun _ => { headerCalls := [((404 : Int), "X-Info", 0)], chunks := [],
             result := .other_failure }

/-- `f0` loading over HTTP via `client404`. -/
def f9 : SResourceFactory := { f0 with m_HttpClient := some client404 }

/-- `f7` with two registered reload observers (in this order). -/
def fOB : SResourceFactory :=
  { f7 with m_ResourceReloadedCallbacks := some [(1, 11), (2, 22)] }

/-- `f7` with three observers registered in the order
`(1,11)`, `(2,22)`, `(3,33)`. -/
def fOB3 : SResourceFactory :=
  { f7 with m_ResourceReloadedCallbacks := some [(1, 11), (2, 22), (3, 33)] }

/-- The factory produced by a successful fresh `Get`, generalized over the
current reference count `k`: the post-load factory `f₁` with the descriptor
`⟨h, addr, idx, k⟩` interned in all three tables under canonical path
`cp`. -/
def internedState (f₁ : SResourceFactory) (h addr idx : Nat) (cp : String) (k : Nat) :
    SResourceFactory :=
  { f₁ with
    m_Resources := mput f₁.m_Resources h { m_NameHash := h, m_Resource := addr, m_ResourceType := idx, m_ReferenceCount := k },
    m_ResourceToHash := mput f₁.m_ResourceToHash addr h,
    m_ResourceHashToFilename := f₁.m_ResourceHashToFilename.map (fun tbl => mput tbl h cp) }

/-! ### Frame lemmas: `LoadResource` never touches the intern tables -/

def stableFields (f : SResourceFactory) :
    List (Nat × SResourceDescriptor) × List (Nat × Nat) ×
      Option (List (Nat × String)) × Option (List (Nat × Nat)) ×
      List SResourceType × String :=
  (f.m_Resources, f.m_ResourceToHash, f.m_ResourceHashToFilename,
   f.m_ResourceReloadedCallbacks, f.m_ResourceTypes, f.m_BasePath)

theorem stableFields_httpHeaderStep (f : SResourceFactory) (call : Int × String × Nat) :
    stableFields (httpHeaderStep f call) = stableFields f := by
  unfold httpHeaderStep
  by_cases h : call.2.1 = "Content-Length" <;> simp [h, stableFields]

theorem stableFields_httpContentStep (f : SResourceFactory) (chunk : Bytes) :
    stableFields (httpContentStep f chunk) = stableFields f := by
  unfold httpContentStep
  by_cases h : f.m_StreamBufferSize - f.m_HttpTotalBytesStreamed < chunk.length <;>
    simp [h, stableFields]

theorem stableFields_foldl_header (calls : List (Int × String × Nat)) (f : SResourceFactory) :
    stableFields (calls.foldl httpHeaderStep f) = stableFields f := by
  induction calls generalizing f with
  | nil => rfl
  | cons c rest ih => rw [List.foldl_cons, ih, stableFields_httpHeaderStep]

theorem stableFields_foldl_content (chunks : List Bytes) (f : SResourceFactory) :
    stableFields (chunks.foldl httpContentStep f) = stableFields f := by
  induction chunks generalizing f with
  | nil => rfl
  | cons c rest ih => rw [List.foldl_cons, ih, stableFields_httpContentStep]

@[simp] theorem resources_foldl_header (calls : List (Int × String × Nat)) (f : SResourceFactory) :
    (calls.foldl httpHeaderStep f).m_Resources = f.m_Resources :=
  congrArg (fun t => t.1) (stableFields_foldl_header calls f)

@[simp] theorem toHash_foldl_header (calls : List (Int × String × Nat)) (f : SResourceFactory) :
    (calls.foldl httpHeaderStep f).m_ResourceToHash = f.m_ResourceToHash :=
  congrArg (fun t => t.2.1) (stableFields_foldl_header calls f)

@[simp] theorem filename_foldl_header (calls : List (Int × String × Nat)) (f : SResourceFactory) :
    (calls.foldl httpHeaderStep f).m_ResourceHashToFilename = f.m_ResourceHashToFilename :=
  congrArg (fun t => t.2.2.1) (stableFields_foldl_header calls f)

@[simp] theorem callbacks_foldl_header (calls : List (Int × String × Nat)) (f : SResourceFactory) :
    (calls.foldl httpHeaderStep f).m_ResourceReloadedCallbacks = f.m_ResourceReloadedCallbacks :=
  congrArg (fun t => t.2.2.2.1) (stableFields_foldl_header calls f)

@[simp] theorem types_foldl_header (calls : List (Int × String × Nat)) (f : SResourceFactory) :
    (calls.foldl httpHeaderStep f).m_ResourceTypes = f.m_ResourceTypes :=
  congrArg (fun t => t.2.2.2.2.1) (stableFields_foldl_header calls f)

@[simp] theorem basePath_foldl_header (calls : List (Int × String × Nat)) (f : SResourceFactory) :
    (calls.foldl httpHeaderStep f).m_BasePath = f.m_BasePath :=
  congrArg (fun t => t.2.2.2.2.2) (stableFields_foldl_header calls f)

@[simp] theorem resources_foldl_content (chunks : List Bytes) (f : SResourceFactory) :
    (chunks.foldl httpContentStep f).m_Resources = f.m_Resources :=
  congrArg (fun t => t.1) (stableFields_foldl_content chunks f)

@[simp] theorem toHash_foldl_content (chunks : List Bytes) (f : SResourceFactory) :
    (chunks.foldl httpContentStep f).m_ResourceToHash = f.m_ResourceToHash :=
  congrArg (fun t => t.2.1) (stableFields_foldl_content chunks f)

@[simp] theorem filename_foldl_content (chunks : List Bytes) (f : SResourceFactory) :
    (chunks.foldl httpContentStep f).m_ResourceHashToFilename = f.m_ResourceHashToFilename :=
  congrArg (fun t => t.2.2.1) (stableFields_foldl_content chunks f)

@[simp] theorem callbacks_foldl_content (chunks : List Bytes) (f : SResourceFactory) :
    (chunks.foldl httpContentStep f).m_ResourceReloadedCallbacks = f.m_ResourceReloadedCallbacks :=
  congrArg (fun t => t.2.2.2.1) (stableFields_foldl_content chunks f)

@[simp] theorem types_foldl_content (chunks : List Bytes) (f : SResourceFactory) :
    (chunks.foldl httpContentStep f).m_ResourceTypes = f.m_ResourceTypes :=
  congrArg (fun t => t.2.2.2.2.1) (stableFields_foldl_content chunks f)

@[simp] theorem basePath_foldl_content (chunks : List Bytes) (f : SResourceFactory) :
    (chunks.foldl httpContentStep f).m_BasePath = f.m_BasePath :=
  congrArg (fun t => t.2.2.2.2.2) (stableFields_foldl_content chunks f)

theorem stableFields_httpAfterCallbacks (f : SResourceFactory) (resp : HttpResponse) :
    stableFields (httpAfterCallbacks f resp) = stableFields f := by
  unfold httpAfterCallbacks
  rw [stableFields_foldl_content, stableFields_foldl_header]
  rfl

@[simp] theorem resources_httpAfterCallbacks (f : SResourceFactory) (resp : HttpResponse) :
    (httpAfterCallbacks f resp).m_Resources = f.m_Resources :=
  congrArg (fun t => t.1) (stableFields_httpAfterCallbacks f resp)

@[simp] theorem toHash_httpAfterCallbacks (f : SResourceFactory) (resp : HttpResponse) :
    (httpAfterCallbacks f resp).m_ResourceToHash = f.m_ResourceToHash :=
  congrArg (fun t => t.2.1) (stableFields_httpAfterCallbacks f resp)

@[simp] theorem filename_httpAfterCallbacks (f : SResourceFactory) (resp : HttpResponse) :
    (httpAfterCallbacks f resp).m_ResourceHashToFilename = f.m_ResourceHashToFilename :=
  congrArg (fun t => t.2.2.1) (stableFields_httpAfterCallbacks f resp)

@[simp] theorem callbacks_httpAfterCallbacks (f : SResourceFactory) (resp : HttpResponse) :
    (httpAfterCallbacks f resp).m_ResourceReloadedCallbacks = f.m_ResourceReloadedCallbacks :=
  congrArg (fun t => t.2.2.2.1) (stableFields_httpAfterCallbacks f resp)

@[simp] theorem types_httpAfterCallbacks (f : SResourceFactory) (resp : HttpResponse) :
    (httpAfterCallbacks f resp).m_ResourceTypes = f.m_ResourceTypes :=
  congrArg (fun t => t.2.2.2.2.1) (stableFields_httpAfterCallbacks f resp)

@[simp] theorem basePath_httpAfterCallbacks (f : SResourceFactory) (resp : HttpResponse) :
    (httpAfterCallbacks f resp).m_BasePath = f.m_BasePath :=
  congrArg (fun t => t.2.2.2.2.2) (stableFields_httpAfterCallbacks f resp)

theorem stableFields_loadViaHttp (f : SResourceFactory)
    (client : String → HttpResponse) (path : String) :
    stableFields (loadViaHttp f client path).2.2.1 = stableFields f := by
  simp only [loadViaHttp]
  split
  · split <;> simp [stableFields]
  · split
    · simp [stableFields]
    · simp [stableFields]

theorem stableFields_loadViaFile (env : FileSystem) (f : SResourceFactory) (path : String) :
    stableFields (loadViaFile env f path).2.2.1 = stableFields f := by
  unfold loadViaFile
  split
  · rfl
  · split
    · rfl
    · split <;> simp [stableFields]

theorem stableFields_loadFallthrough (env : FileSystem) (f : SResourceFactory)
    (path : String) :
    stableFields (loadFallthrough env f path).2.2.1 = stableFields f := by
  unfold loadFallthrough
  split
  · exact stableFields_loadViaHttp _ _ _
  · exact stableFields_loadViaFile _ _ _

theorem stableFields_LoadResource (env : FileSystem) (f : SResourceFactory)
    (path original_name : String) :
    stableFields (LoadResource env f path original_name).2.2.1 = stableFields f := by
  unfold LoadResource
  split
  · split
    · split <;> simp [stableFields]
    · exact stableFields_loadFallthrough _ _ _
  · exact stableFields_loadFallthrough _ _ _

@[simp] theorem resources_LoadResource (env : FileSystem) (f : SResourceFactory)
    (path original_name : String) :
    (LoadResource env f path original_name).2.2.1.m_Resources = f.m_Resources :=
  congrArg (fun t => t.1) (stableFields_LoadResource env f path original_name)

@[simp] theorem toHash_LoadResource (env : FileSystem) (f : SResourceFactory)
    (path original_name : String) :
    (LoadResource env f path original_name).2.2.1.m_ResourceToHash = f.m_ResourceToHash :=
  congrArg (fun t => t.2.1) (stableFields_LoadResource env f path original_name)

@[simp] theorem filename_LoadResource (env : FileSystem) (f : SResourceFactory)
    (path original_name : String) :
    (LoadResource env f path original_name).2.2.1.m_ResourceHashToFilename =
      f.m_ResourceHashToFilename :=
  congrArg (fun t => t.2.2.1) (stableFields_LoadResource env f path original_name)

@[simp] theorem callbacks_LoadResource (env : FileSystem) (f : SResourceFactory)
    (path original_name : String) :
    (LoadResource env f path original_name).2.2.1.m_ResourceReloadedCallbacks =
      f.m_ResourceReloadedCallbacks :=
  congrArg (fun t => t.2.2.2.1) (stableFields_LoadResource env f path original_name)

@[simp] theorem types_LoadResource (env : FileSystem) (f : SResourceFactory)
    (path original_name : String) :
    (LoadResource env f path original_name).2.2.1.m_ResourceTypes = f.m_ResourceTypes :=
  congrArg (fun t => t.2.2.2.2.1) (stableFields_LoadResource env f path original_name)

@[simp] theorem basePath_LoadResource (env : FileSystem) (f : SResourceFactory)
    (path original_name : String) :
    (LoadResource env f path original_name).2.2.1.m_BasePath = f.m_BasePath :=
  congrArg (fun t => t.2.2.2.2.2) (stableFields_LoadResource env f path original_name)

theorem tables_LoadResource (env : FileSystem) (f : SResourceFactory)
    (path original_name : String) :
    tables (LoadResource env f path original_name).2.2.1 = tables f := by
  unfold tables
  simp


/-- C8 (amended): `register_type` performs its checks in a fixed order —
`OutOfResources` when the registry already holds 128 entries; otherwise
`Invalid` when the extension contains `'.'` or the create or destroy
callback is absent; otherwise `AlreadyRegistered` when the extension already
has an entry; otherwise `Ok`. -/
theorem register_type_check_order (f : SResourceFactory) (extension : String) (context : Nat)
    (create_function : Option (Nat → Bytes → Nat → String → CreateResult × Nat))
    (destroy_function : Option Unit)
    (recreate_function : Option (Nat → Bytes → Nat → String → CreateResult)) :
    (RegisterType f extension context create_function destroy_function recreate_function).1 =
      registerTypeSpecResult f extension create_function destroy_function := by
  unfold RegisterType registerTypeSpecResult
  rcases create_function with _ | c <;> rcases destroy_function with _ | d <;>
    split_ifs <;> simp_all

/-- C8 counterexample: with a full registry (128 entries) and an extension
containing `'.'`, `RegisterType` returns `OutOfResources`, not `Invalid` as
the claim's "returns Invalid whenever the extension contains a '.'"
demands. -/
theorem register_type_counterexample :
    ("a.b".data.contains '.') = true ∧
    (RegisterType fFull "a.b" 0 (some cf0) (some ()) none).1 =
      FactoryResult.out_of_resources ∧
    (RegisterType fFull "a.b" 0 (some cf0) (some ()) none).1 ≠ FactoryResult.invalid := by
  refine ⟨by decide, ?_, ?_⟩
  · unfold RegisterType
    simp [fFull, MAX_RESOURCE_TYPES]
  · unfold RegisterType
    simp [fFull, MAX_RESOURCE_TYPES]

/-- C6: reloading a resource whose handler has no recreate callback returns
`NotSupported`, performs no transport load, mutates nothing and notifies no
observer (the factory is returned unchanged with an empty event trace). -/
theorem reload_without_recreate_not_supported (hh : String → Nat) (env : FileSystem)
    (f : SResourceFactory) (name : String) (rd : SResourceDescriptor) (rt : SResourceType)
    (hrd : mget f.m_Resources (hh (GetCanonicalPath f.m_BasePath name)) = some rd)
    (hrt : f.m_ResourceTypes[rd.m_ResourceType]? = some rt)
    (hnorec : rt.m_RecreateFunction = none) :
    ReloadResource hh env f name = some (.not_supported, some rd, f, []) := by
  unfold ReloadResource
  simp [hrd, hrt, hnorec]

/-- C6 witness: a concrete interned `a.txt` whose handler lacks recreate. -/
theorem reload_without_recreate_witness :
    ReloadResource hh0 env0 f6 "a.txt" =
      some (.not_supported, some d0, f6, []) :=
  reload_without_recreate_not_supported hh0 env0 f6 "a.txt" d0 rt0 (by decide) rfl rfl

/-- C9: `ReloadResource` never inserts into or erases from `m_Resources`,
`m_ResourceToHash` or `m_ResourceHashToFilename` — whatever the outcome,
the three intern tables of the returned factory are those of the input. -/
theorem reload_preserves_tables (hh : String → Nat) (env : FileSystem)
    (f : SResourceFactory) (name : String) (r : ReloadResult)
    (d : Option SResourceDescriptor) (g : SResourceFactory) (evs : List Event)
    (h : ReloadResource hh env f name = some (r, d, g, evs)) :
    tables g = tables f := by
  simp only [ReloadResource] at h
  split at h
  · simp only [Option.some.injEq, Prod.mk.injEq] at h
    obtain ⟨-, -, rfl, -⟩ := h
    rfl
  · split at h
    · exact absurd h (by simp)
    · split at h
      · simp only [Option.some.injEq, Prod.mk.injEq] at h
        obtain ⟨-, -, rfl, -⟩ := h
        rfl
      · split at h
        · simp only [Option.some.injEq, Prod.mk.injEq] at h
          obtain ⟨-, -, rfl, -⟩ := h
          exact tables_LoadResource _ _ _ _
        · split at h <;>
            (simp only [Option.some.injEq, Prod.mk.injEq] at h
             obtain ⟨-, -, rfl, -⟩ := h
             exact tables_LoadResource _ _ _ _)

/-- C9 witness: a successful reload of `a.txt` at `f7` leaves the tables
untouched. -/
theorem reload_preserves_tables_witness : tables fz7 = tables f7 :=
  reload_preserves_tables hh0 env0 f7 "a.txt" ReloadResult.ok (some d0) fz7
    [Event.fs_open "/tmp/data/a.txt"] rfl


/-- C2: acquire atomicity.  Whenever `Get` returns anything but Ok, the
three intern tables are exactly as before the call; when it returns Ok on a
table miss, all three tables reflect the freshly interned descriptor
(`by_hash` holds it with reference count 1 under the canonical hash,
`by_address` maps its address back to the hash, and `hash_to_filename` —
when reload support is on — gained the canonical path). -/
theorem get_atomicity (hh : String → Nat) (env : FileSystem) (f : SResourceFactory)
    (name : String) :
    ((Get hh env f name).1 ≠ FactoryResult.ok →
      tables (Get hh env f name).2.2.1 = tables f) ∧
    (mget f.m_Resources (hh (GetCanonicalPath f.m_BasePath name)) = none →
      (Get hh env f name).1 = FactoryResult.ok →
      ∃ d : SResourceDescriptor,
        mget (Get hh env f name).2.2.1.m_Resources
            (hh (GetCanonicalPath f.m_BasePath name)) = some d ∧
        d.m_NameHash = hh (GetCanonicalPath f.m_BasePath name) ∧
        d.m_ReferenceCount = 1 ∧
        d.m_Resource = (Get hh env f name).2.1 ∧
        mget (Get hh env f name).2.2.1.m_ResourceToHash d.m_Resource =
          some (hh (GetCanonicalPath f.m_BasePath name)) ∧
        (Get hh env f name).2.2.1.m_ResourceHashToFilename =
          f.m_ResourceHashToFilename.map
            (fun tbl => mput tbl (hh (GetCanonicalPath f.m_BasePath name))
              (GetCanonicalPath f.m_BasePath name))) := by
  constructor
  · simp only [Get]
    split
    · intro hne
      exact absurd rfl hne
    · split
      · intro _
        rfl
      · split
        · intro _
          rfl
        · split
          · intro _
            exact tables_LoadResource _ _ _ _
          · split
            · intro hne
              exact absurd rfl hne
            · intro _
              unfold tables
              simp
  · intro hmiss
    simp only [Get]
    split
    · intro _
      simp_all
    · split
      · intro hok
        exact absurd hok (by simp)
      · split
        · intro hok
          exact absurd hok (by simp)
        · split
          · rename_i hL
            intro hok
            simp only at hok
            exact absurd hok (by simp_all)
          · split
            · intro _
              refine ⟨_, mget_mput_self _ _ _, rfl, rfl, rfl, mget_mput_self _ _ _, ?_⟩
              simp
            · intro hok
              exact absurd hok (by simp)

/-- C2 witness: `Get` on a name without extension leaves the tables of `f0`
untouched, and `Get` on a fresh `a.txt` interns the descriptor in all three
tables. -/
theorem get_atomicity_witness :
    tables (Get hh0 env0 f0 "a").2.2.1 = tables f0 ∧
    (∃ d : SResourceDescriptor,
      mget (Get hh0 env0 f0 "a.txt").2.2.1.m_Resources
          (hh0 (GetCanonicalPath f0.m_BasePath "a.txt")) = some d ∧
      d.m_NameHash = hh0 (GetCanonicalPath f0.m_BasePath "a.txt") ∧
      d.m_ReferenceCount = 1 ∧
      d.m_Resource = (Get hh0 env0 f0 "a.txt").2.1 ∧
      mget (Get hh0 env0 f0 "a.txt").2.2.1.m_ResourceToHash d.m_Resource =
        some (hh0 (GetCanonicalPath f0.m_BasePath "a.txt")) ∧
      (Get hh0 env0 f0 "a.txt").2.2.1.m_ResourceHashToFilename =
        f0.m_ResourceHashToFilename.map
          (fun tbl => mput tbl (hh0 (GetCanonicalPath f0.m_BasePath "a.txt"))
            (GetCanonicalPath f0.m_BasePath "a.txt"))) :=
  ⟨(get_atomicity hh0 env0 f0 "a").1 (by decide),
   (get_atomicity hh0 env0 f0 "a.txt").2 (by decide) (by decide)⟩

/-- C10: on the acquire path, every create-callback failure is collapsed to
`FACTORY_RESULT_UNKNOWN`, while on the reload path each `CreateResult`
variant maps to its own `ReloadResult` variant (`reloadResultOfCreate`). -/
theorem create_error_collapsing
    (cr : CreateResult) (hcr : cr ≠ CreateResult.ok)
    (hh : String → Nat) (env : FileSystem) (f : SResourceFactory) (name : String)
    (extChars : List Char) (idx : Nat) (rt : SResourceType)
    (hmiss : mget f.m_Resources (hh (GetCanonicalPath f.m_BasePath name)) = none)
    (hext : afterLastDot name.data = some extChars)
    (hfind : FindResourceType f.m_ResourceTypes ⟨extChars⟩ = some (idx, rt))
    (hload : (LoadResource env f (GetCanonicalPath f.m_BasePath name) name).1 =
      FactoryResult.ok)
    (hcreate : (rt.m_CreateFunction rt.m_Context
        (LoadResource env f (GetCanonicalPath f.m_BasePath name) name).2.2.1.m_StreamBuffer
        (LoadResource env f (GetCanonicalPath f.m_BasePath name) name).2.1 name).1 = cr)
    (hh2 : String → Nat) (env2 : FileSystem) (g : SResourceFactory) (name2 : String)
    (rd : SResourceDescriptor) (rt2 : SResourceType)
    (rec2 : Nat → Bytes → Nat → String → CreateResult)
    (hrd : mget g.m_Resources (hh2 (GetCanonicalPath g.m_BasePath name2)) = some rd)
    (hrt2 : g.m_ResourceTypes[rd.m_ResourceType]? = some rt2)
    (hrec : rt2.m_RecreateFunction = some rec2)
    (hgload : (LoadResource env2 g (GetCanonicalPath g.m_BasePath name2) name2).1 =
      FactoryResult.ok)
    (hrecr : rec2 rt2.m_Context
        (LoadResource env2 g (GetCanonicalPath g.m_BasePath name2) name2).2.2.1.m_StreamBuffer
        (LoadResource env2 g (GetCanonicalPath g.m_BasePath name2) name2).2.1 name2 = cr) :
    (Get hh env f name).1 = FactoryResult.unknown ∧
    (ReloadResource hh2 env2 g name2).map (fun x => x.1) =
      some (reloadResultOfCreate cr) := by
  constructor
  · simp only [Get, hmiss, hext, hfind]
    simp only [hload, hcreate]
    simp [hcr]
  · cases cr <;>
      simp [ReloadResource, hrd, hrt2, hrec, hgload, hrecr, reloadResultOfCreate]

/-- C10 witness: a failing create at acquire yields `Unknown`, while the
same `FORMAT_ERROR` at reload yields `RELOAD_RESULT_FORMAT_ERROR`. -/
theorem create_error_collapsing_witness :
    (Get hh0 env0 fCF "a.txt").1 = FactoryResult.unknown ∧
    (ReloadResource hh0 env0 fRF "a.txt").map (fun x => x.1) =
      some (reloadResultOfCreate CreateResult.format_error) :=
  create_error_collapsing CreateResult.format_error (by decide)
    hh0 env0 fCF "a.txt" "txt".data 0 rtCF (by decide) (by decide) rfl (by decide) rfl
    hh0 env0 fRF "a.txt" d0 rtRF recFail (by decide) rfl rfl (by decide) rfl


/-- C3 (amended): transport fallthrough of `LoadResource`.  An archive hit
whose bytes (plus NUL) fit the stream buffer is served from the archive —
for every filesystem, so any file on disk is shadowed; an archive hit that
does not fit returns `StreamBufferTooSmall`, still consulting neither HTTP
nor disk; when the archive is absent or misses, a configured HTTP client is
attempted next (the first event is the GET); with no HTTP client the
filesystem is used (the first event is the open). -/
theorem load_transport_fallthrough (env : FileSystem) (f : SResourceFactory)
    (path original_name : String) :
    (∀ findEntry bytes, f.m_BuiltinsArchive = some findEntry →
      findEntry original_name = some bytes →
      bytes.length + 1 < f.m_StreamBufferSize →
      LoadResource env f path original_name =
        (.ok, bytes.length, { f with m_StreamBuffer := bytes ++ [0] },
          [Event.archive_hit original_name])) ∧
    (∀ findEntry bytes, f.m_BuiltinsArchive = some findEntry →
      findEntry original_name = some bytes →
      bytes.length + 1 ≥ f.m_StreamBufferSize →
      LoadResource env f path original_name =
        (.streambuffer_too_small, 0, f,
          [Event.archive_hit original_name,
           Event.log .error "Resource too large for streambuffer"])) ∧
    (∀ client, f.m_HttpClient = some client →
      (f.m_BuiltinsArchive = none ∨
        ∀ findEntry, f.m_BuiltinsArchive = some findEntry → findEntry original_name = none) →
      LoadResource env f path original_name = loadViaHttp f client path ∧
      (LoadResource env f path original_name).2.2.2.head? = some (Event.http_get path)) ∧
    (f.m_HttpClient = none →
      (f.m_BuiltinsArchive = none ∨
        ∀ findEntry, f.m_BuiltinsArchive = some findEntry → findEntry original_name = none) →
      LoadResource env f path original_name = loadViaFile env f path ∧
      (LoadResource env f path original_name).2.2.2.head? = some (Event.fs_open path)) := by
  have hhttp : ∀ client, (loadViaHttp f client path).2.2.2.head? =
      some (Event.http_get path) := by
    intro client
    simp only [loadViaHttp]
    split
    · split <;> simp
    · split <;> simp
  have hfile : (loadViaFile env f path).2.2.2.head? = some (Event.fs_open path) := by
    simp only [loadViaFile]
    split
    · simp
    · split
      · simp
      · split <;> simp
  refine ⟨?_, ?_, ?_, ?_⟩
  · intro findEntry bytes ha hfe hlt
    have hnot : ¬ (bytes.length + 1 ≥ f.m_StreamBufferSize) := by omega
    simp [LoadResource, ha, hfe, hnot]
  · intro findEntry bytes ha hfe hge
    simp [LoadResource, ha, hfe, hge]
  · intro client hcli harc
    have hdisp : LoadResource env f path original_name = loadViaHttp f client path := by
      rcases harc with h | h
      · simp [LoadResource, h, loadFallthrough, hcli]
      · rcases ha : f.m_BuiltinsArchive with _ | fe
        · simp [LoadResource, ha, loadFallthrough, hcli]
        · simp [LoadResource, ha, h fe ha, loadFallthrough, hcli]
    exact ⟨hdisp, hdisp ▸ hhttp client⟩
  · intro hcli harc
    have hdisp : LoadResource env f path original_name = loadViaFile env f path := by
      rcases harc with h | h
      · simp [LoadResource, h, loadFallthrough, hcli]
      · rcases ha : f.m_BuiltinsArchive with _ | fe
        · simp [LoadResource, ha, loadFallthrough, hcli]
        · simp [LoadResource, ha, h fe ha, loadFallthrough, hcli]
    exact ⟨hdisp, hdisp ▸ hfile⟩

/-- C3 counterexample: with `a.txt → 8 bytes` in the archive but a 4-byte
stream buffer, the archive hit is not "returned" — `LoadResource` fails with
`StreamBufferTooSmall` even though the archive contains the name, refuting
the claim's unconditional "its bytes are returned". -/
theorem load_transport_counterexample :
    f3.m_BuiltinsArchive = some af3 ∧
    af3 "a.txt" = some [1, 2, 3, 4, 5, 6, 7, 8] ∧
    (LoadResource env0 f3 "/tmp/data/a.txt" "a.txt").1 =
      FactoryResult.streambuffer_too_small ∧
    (LoadResource env0 f3 "/tmp/data/a.txt" "a.txt").1 ≠ FactoryResult.ok :=
  ⟨rfl, by decide, by decide, by decide⟩

/-- C3 witness: the four fallthrough cases at concrete factories — archive
hit served, archive hit too large, HTTP attempted, filesystem used. -/
theorem load_transport_fallthrough_witness :
    LoadResource env0 f4 "/tmp/data/a.txt" "a.txt" =
      (.ok, 2, { f4 with m_StreamBuffer := [9, 9] ++ [0] }, [Event.archive_hit "a.txt"]) ∧
    LoadResource env0 f3 "/tmp/data/a.txt" "a.txt" =
      (.streambuffer_too_small, 0, f3,
        [Event.archive_hit "a.txt",
         Event.log .error "Resource too large for streambuffer"]) ∧
    (LoadResource env0 f8 "q" "n" = loadViaHttp f8 client7 "q" ∧
      (LoadResource env0 f8 "q" "n").2.2.2.head? = some (Event.http_get "q")) ∧
    (LoadResource env0 f0 "/tmp/data/a.txt" "a.txt" =
        loadViaFile env0 f0 "/tmp/data/a.txt" ∧
      (LoadResource env0 f0 "/tmp/data/a.txt" "a.txt").2.2.2.head? =
        some (Event.fs_open "/tmp/data/a.txt")) :=
  ⟨(load_transport_fallthrough env0 f4 "/tmp/data/a.txt" "a.txt").1
      af4 [9, 9] rfl (by decide) (by decide),
   (load_transport_fallthrough env0 f3 "/tmp/data/a.txt" "a.txt").2.1
      af3 [1, 2, 3, 4, 5, 6, 7, 8] rfl (by decide) (by decide),
   (load_transport_fallthrough env0 f8 "q" "n").2.2.1 client7 rfl (Or.inl rfl),
   (load_transport_fallthrough env0 f0 "/tmp/data/a.txt" "a.txt").2.2.2 rfl (Or.inl rfl)⟩

/-- C7 (amended): on the HTTP path, a GET that completes without error and
without a content-callback overflow but whose `Content-Length` differs from
the streamed byte count still returns Ok with the streamed count as the
size, logging the mismatch at error severity (`dmLogError`, line 477); a GET
error with captured status 404 returns `ResourceNotFound`; any other GET
failure returns `IoError`. -/
theorem http_load_results (env : FileSystem) (f : SResourceFactory)
    (client : String → HttpResponse) (path original_name : String) (g : SResourceFactory)
    (harc : f.m_BuiltinsArchive = none)
    (hcli : f.m_HttpClient = some client)
    (hg : g = httpAfterCallbacks f (client path)) :
    ((client path).result = HttpClientResult.ok →
      g.m_HttpFactoryResult = FactoryResult.ok →
      g.m_HttpContentLength ≠ g.m_HttpTotalBytesStreamed →
      (LoadResource env f path original_name).1 = FactoryResult.ok ∧
      (LoadResource env f path original_name).2.1 = g.m_HttpTotalBytesStreamed ∧
      Event.log .error "Expected content length differs from actually streamed" ∈
        (LoadResource env f path original_name).2.2.2) ∧
    ((client path).result ≠ HttpClientResult.ok → g.m_HttpStatus = 404 →
      (LoadResource env f path original_name).1 = FactoryResult.resource_not_found) ∧
    ((client path).result ≠ HttpClientResult.ok → g.m_HttpStatus ≠ 404 →
      (LoadResource env f path original_name).1 = FactoryResult.io_error) := by
  subst hg
  refine ⟨?_, ?_, ?_⟩
  · intro h1 h2 h3
    simp [LoadResource, harc, loadFallthrough, hcli, loadViaHttp, h1, h2, h3]
  · intro h1 h2
    simp [LoadResource, harc, loadFallthrough, hcli, loadViaHttp, h1, h2]
  · intro h1 h2
    simp [LoadResource, harc, loadFallthrough, hcli, loadViaHttp, h1, h2]

/-- C7 counterexample: for the concrete exchange `client7`
(`Content-Length: 10`, five bytes streamed, GET ok) the load returns Ok
with size 5 but the mismatch is logged at **error** severity and no
warning-severity line is emitted — refuting "logs a warning (not an
error)". -/
theorem http_mismatch_counterexample :
    (LoadResource env0 f8 "p" "n").1 = FactoryResult.ok ∧
    (LoadResource env0 f8 "p" "n").2.1 = 5 ∧
    (LoadResource env0 f8 "p" "n").2.2.2.filter Event.isWarningLog = [] ∧
    Event.log .error "Expected content length differs from actually streamed" ∈
      (LoadResource env0 f8 "p" "n").2.2.2 :=
  ⟨by decide, by decide, by decide, by decide⟩

/-- C7 witness: the mismatch case at `client7` and the 404 case at
`client404`. -/
theorem http_load_results_witness :
    ((LoadResource env0 f8 "p" "n").1 = FactoryResult.ok ∧
     (LoadResource env0 f8 "p" "n").2.1 =
       (httpAfterCallbacks f8 (client7 "p")).m_HttpTotalBytesStreamed ∧
     Event.log .error "Expected content length differs from actually streamed" ∈
       (LoadResource env0 f8 "p" "n").2.2.2) ∧
    (LoadResource env0 f9 "p" "n").1 = FactoryResult.resource_not_found :=
  ⟨(http_load_results env0 f8 client7 "p" "n" (httpAfterCallbacks f8 (client7 "p"))
      rfl rfl rfl).1 (by decide) (by decide) (by decide),
   (http_load_results env0 f9 client404 "p" "n" (httpAfterCallbacks f9 (client404 "p"))
      rfl rfl rfl).2.1 (by decide) (by decide)⟩


/-! ### Canonicalization: properties of the slash-collapsing loop -/

/-- Adjacent characters compatible with a collapsed path: not both `/`. -/
def slashOk (a b : Char) : Prop := ¬(a = '/' ∧ b = '/')

theorem collapseAux_append (xs : List Char) : ∀ (l : Char) (ys : List Char),
    collapseAux l (xs ++ ys) = collapseAux l xs ++ collapseAux (xs.getLastD l) ys := by
  induction xs with
  | nil => intro l ys; rfl
  | cons a t ih =>
    intro l ys
    have hg : (a :: t).getLastD l = t.getLastD a := List.getLastD_cons l a t
    rw [hg]
    by_cases h : a ≠ '/' ∨ l ≠ '/'
    · simp only [List.cons_append, collapseAux, if_pos h]
      exact congrArg (fun z => a :: z) (ih a ys)
    · simp only [List.cons_append, collapseAux, if_neg h]
      exact ih a ys

theorem chain_collapseAux (xs : List Char) : ∀ l, List.Chain slashOk l (collapseAux l xs) := by
  induction xs with
  | nil => intro l; exact List.Chain.nil
  | cons a t ih =>
    intro l
    by_cases h : a ≠ '/' ∨ l ≠ '/'
    · have hR : slashOk l a := by
        rcases h with h | h
        · exact fun hp => h hp.2
        · exact fun hp => h hp.1
      simpa [collapseAux, h] using List.Chain.cons hR (ih a)
    · push_neg at h
      obtain ⟨ha, hl⟩ := h
      subst ha; subst hl
      simpa [collapseAux] using ih '/'

theorem collapseAux_of_chain (xs : List Char) : ∀ l, List.Chain slashOk l xs →
    collapseAux l xs = xs := by
  induction xs with
  | nil => intro l _; rfl
  | cons a t ih =>
    intro l h
    rcases h with _ | ⟨hR, hc⟩
    have hkeep : a ≠ '/' ∨ l ≠ '/' := by
      by_cases ha : a = '/'
      · exact Or.inr (fun hl => hR ⟨hl, ha⟩)
      · exact Or.inl ha
    simp [collapseAux, hkeep, ih a hc]

theorem collapseAux_length_le (xs : List Char) : ∀ l, (collapseAux l xs).length ≤ xs.length := by
  induction xs with
  | nil => intro l; exact Nat.le_refl 0
  | cons a t ih =>
    intro l
    by_cases h : a ≠ '/' ∨ l ≠ '/' <;> simp [collapseAux, h]
    · exact ih a
    · exact Nat.le_succ_of_le (ih a)

theorem leadsWith_append (p q : List Char) : leadsWith p (p ++ q) = true := by
  induction p with
  | nil => rfl
  | cons a t ih => simp [leadsWith, ih]

theorem nds_chain (t : List Char) : ∀ a, noDoubleSlash (a :: t) = true →
    List.Chain slashOk a t := by
  induction t with
  | nil => intro a _; exact List.Chain.nil
  | cons b t' ih =>
    intro a h
    unfold noDoubleSlash at h
    rw [Bool.and_eq_true] at h
    refine List.Chain.cons ?_ (ih b h.2)
    intro hp
    have := h.1
    simp [hp.1, hp.2] at this

theorem chain_nul (B : List Char) (h : noDoubleSlash B = true) :
    List.Chain slashOk nulChar B := by
  cases B with
  | nil => exact List.Chain.nil
  | cons a t => exact List.Chain.cons (fun hp => by exact absurd hp.1 (by decide)) (nds_chain t a h)

theorem collapseAux_eq_spec : ∀ (n : Nat) (s : List Char), s.length ≤ n →
    (∀ l, l ≠ '/' → collapseAux l s = collapseSpec s) ∧
    ('/' :: collapseAux '/' s = collapseSpec ('/' :: s)) := by
  intro n
  induction n with
  | zero =>
    intro s hs
    have hnil : s = [] := List.length_eq_zero.mp (Nat.le_zero.mp hs)
    subst hnil
    exact ⟨fun l _ => rfl, rfl⟩
  | succ n ih =>
    intro s hs
    cases s with
    | nil => exact ⟨fun l _ => rfl, rfl⟩
    | cons a t =>
      have hA : ∀ l, l ≠ '/' → collapseAux l (a :: t) = collapseSpec (a :: t) := by
        intro l hl
        cases t with
        | nil => simp [collapseAux, collapseSpec, hl]
        | cons b t' =>
          have hlen' : (b :: t').length ≤ n := by simp at hs ⊢; omega
          by_cases ha : a = '/'
          · subst ha
            by_cases hb : b = '/'
            · subst hb
              have hB := (ih t' (by simp at hs ⊢; omega)).2
              have e1 : collapseAux l ('/' :: '/' :: t') = '/' :: collapseAux '/' t' := by
                simp [collapseAux, hl]
              have e2 : collapseSpec ('/' :: '/' :: t') = collapseSpec ('/' :: t') := by
                simp [collapseSpec]
              rw [e1, e2]
              exact hB
            · have hAb := (ih (b :: t') hlen').1 b hb
              have hred : collapseAux b (b :: t') = b :: collapseAux b t' := by
                simp [collapseAux, hb]
              have e1 : collapseAux l ('/' :: b :: t') = '/' :: b :: collapseAux b t' := by
                simp [collapseAux, hl, hb]
              have e2 : collapseSpec ('/' :: b :: t') = '/' :: collapseSpec (b :: t') := by
                simp [collapseSpec, hb]
              rw [e1, e2, ← hAb, hred]
          · have hAt := (ih (b :: t') hlen').1 a ha
            have e1 : collapseAux l (a :: b :: t') = a :: collapseAux a (b :: t') := by
              simp [collapseAux, hl]
            have e2 : collapseSpec (a :: b :: t') = a :: collapseSpec (b :: t') := by
              simp [collapseSpec, ha]
            rw [e1, e2, hAt]
      refine ⟨hA, ?_⟩
      by_cases ha : a = '/'
      · subst ha
        have hB := (ih t (by simp at hs ⊢; omega)).2
        have e1 : collapseAux '/' ('/' :: t) = collapseAux '/' t := by
          simp [collapseAux]
        have e2 : collapseSpec ('/' :: '/' :: t) = collapseSpec ('/' :: t) := by
          simp [collapseSpec]
        rw [e1, e2]
        exact hB
      · have hnul : nulChar ≠ '/' := by decide
        have h1 := hA nulChar hnul
        have h2 : collapseAux nulChar (a :: t) = a :: collapseAux a t := by
          simp [collapseAux, hnul]
        have h3 : collapseAux '/' (a :: t) = a :: collapseAux a t := by
          simp [collapseAux, ha]
        have h4 : collapseSpec ('/' :: a :: t) = '/' :: collapseSpec (a :: t) := by
          simp [collapseSpec, ha]
        rw [h3, h4, ← h1, h2]

theorem collapseAux_nul_eq_spec (s : List Char) :
    collapseAux nulChar s = collapseSpec s :=
  (collapseAux_eq_spec s.length s (Nat.le_refl _)).1 nulChar (by decide)


/-- C4 (amended): for combined length within the snprintf limit,
`GetCanonicalPath base rel` equals `base ++ "/" ++ rel` with every run of
consecutive `/` collapsed to one (the look-ahead spec `collapseSpec`); and
when `base` itself contains no consecutive slashes (and a byte of headroom
remains for the re-canonicalization), canonicalizing the canonical result
with the base stripped yields the same string.  The function is pure — its
Lean model takes no filesystem. -/
theorem canonicalize_collapse (base rel : String) :
    (base.data.length + 1 + rel.data.length ≤ 1023 →
      GetCanonicalPath base rel = ⟨collapseSpec (base.data ++ '/' :: rel.data)⟩) ∧
    (noDoubleSlash base.data = true →
      base.data.length + 1 + rel.data.length ≤ 1022 →
      GetCanonicalPath base (stripBase base (GetCanonicalPath base rel)) =
        GetCanonicalPath base rel) := by
  constructor
  · intro hlen
    unfold GetCanonicalPath
    rw [show RESOURCE_PATH_MAX - 1 = 1023 from rfl,
        List.take_of_length_le (by rw [List.length_append, List.length_cons]; omega)]
    exact congrArg String.mk (collapseAux_nul_eq_spec _)
  · intro hb hlen
    have hchain : List.Chain slashOk nulChar base.data := chain_nul base.data hb
    have hcabB : collapseAux nulChar base.data = base.data :=
      collapseAux_of_chain base.data nulChar hchain
    have hlen1 : (base.data ++ '/' :: rel.data).length ≤ 1023 := by
      rw [List.length_append, List.length_cons]; omega
    have hsplit : collapseAux nulChar (base.data ++ '/' :: rel.data)
        = base.data ++ collapseAux (base.data.getLastD nulChar) ('/' :: rel.data) := by
      rw [collapseAux_append, hcabB]
    have htlen : (collapseAux '/' rel.data).length ≤ rel.data.length :=
      collapseAux_length_le rel.data '/'
    have hcabt : collapseAux '/' (collapseAux '/' rel.data) = collapseAux '/' rel.data :=
      collapseAux_of_chain _ '/' (chain_collapseAux rel.data '/')
    obtain ⟨lb, hlb⟩ : ∃ lb, base.data.getLastD nulChar = lb := ⟨_, rfl⟩
    rw [hlb] at hsplit
    by_cases hl : lb = '/'
    · have h1 : collapseAux lb ('/' :: rel.data)
          = collapseAux '/' rel.data := by
        simp [collapseAux, hl]
      have hc : GetCanonicalPath base rel = ⟨base.data ++ collapseAux '/' rel.data⟩ := by
        unfold GetCanonicalPath
        rw [show RESOURCE_PATH_MAX - 1 = 1023 from rfl, List.take_of_length_le hlen1,
            hsplit, h1]
      have hstrip : stripBase base (GetCanonicalPath base rel)
          = ⟨collapseAux '/' rel.data⟩ := by
        rw [hc]
        unfold stripBase
        rw [show (⟨base.data ++ collapseAux '/' rel.data⟩ : String).data
              = base.data ++ collapseAux '/' rel.data from rfl,
            if_pos (leadsWith_append base.data (collapseAux '/' rel.data)),
            List.drop_left]
      rw [hstrip, hc]
      unfold GetCanonicalPath
      rw [show (⟨collapseAux '/' rel.data⟩ : String).data = collapseAux '/' rel.data from rfl]
      have hlen2 : (base.data ++ '/' :: collapseAux '/' rel.data).length ≤ 1023 := by
        rw [List.length_append, List.length_cons]; omega
      rw [show RESOURCE_PATH_MAX - 1 = 1023 from rfl, List.take_of_length_le hlen2,
          collapseAux_append, hcabB, hlb]
      have h2 : collapseAux lb ('/' :: collapseAux '/' rel.data)
          = collapseAux '/' rel.data := by
        simp [collapseAux, hl, hcabt]
      rw [h2]
    · have h1 : collapseAux lb ('/' :: rel.data)
          = '/' :: collapseAux '/' rel.data := by
        simp [collapseAux, hl]
      have hc : GetCanonicalPath base rel
          = ⟨base.data ++ '/' :: collapseAux '/' rel.data⟩ := by
        unfold GetCanonicalPath
        rw [show RESOURCE_PATH_MAX - 1 = 1023 from rfl, List.take_of_length_le hlen1,
            hsplit, h1]
      have hstrip : stripBase base (GetCanonicalPath base rel)
          = ⟨'/' :: collapseAux '/' rel.data⟩ := by
        rw [hc]
        unfold stripBase
        rw [show (⟨base.data ++ '/' :: collapseAux '/' rel.data⟩ : String).data
              = base.data ++ '/' :: collapseAux '/' rel.data from rfl,
            if_pos (leadsWith_append base.data ('/' :: collapseAux '/' rel.data)),
            List.drop_left]
      rw [hstrip, hc]
      unfold GetCanonicalPath
      rw [show (⟨'/' :: collapseAux '/' rel.data⟩ : String).data
            = '/' :: collapseAux '/' rel.data from rfl]
      have hlen2 : (base.data ++ '/' :: '/' :: collapseAux '/' rel.data).length ≤ 1023 := by
        rw [List.length_append, List.length_cons, List.length_cons]; omega
      rw [show RESOURCE_PATH_MAX - 1 = 1023 from rfl, List.take_of_length_le hlen2,
          collapseAux_append, hcabB, hlb]
      have h2 : collapseAux lb
            ('/' :: '/' :: collapseAux '/' rel.data)
          = '/' :: collapseAux '/' rel.data := by
        simp [collapseAux, hl, hcabt]
      rw [h2]

/-- C4 counterexample: for the base `"a//b"` (which contains a run of
slashes) idempotence fails: the canonical result `"a/b/r"` does not start
with the raw base, so stripping leaves it unchanged and re-canonicalizing
prepends the base again. -/
theorem canonicalize_counterexample :
    GetCanonicalPath "a//b" "r" = "a/b/r" ∧
    stripBase "a//b" (GetCanonicalPath "a//b" "r") = "a/b/r" ∧
    GetCanonicalPath "a//b" (stripBase "a//b" (GetCanonicalPath "a//b" "r")) = "a/b/a/b/r" ∧
    GetCanonicalPath "a//b" (stripBase "a//b" (GetCanonicalPath "a//b" "r")) ≠
      GetCanonicalPath "a//b" "r" :=
  ⟨by decide, by decide, by decide, by decide⟩

/-- C4 witness: collapse and idempotence at `base = "/tmp/data"`,
`rel = "a//b.txt"`. -/
theorem canonicalize_collapse_witness :
    GetCanonicalPath "/tmp/data" "a//b.txt" =
      ⟨collapseSpec ("/tmp/data".data ++ '/' :: "a//b.txt".data)⟩ ∧
    GetCanonicalPath "/tmp/data"
        (stripBase "/tmp/data" (GetCanonicalPath "/tmp/data" "a//b.txt")) =
      GetCanonicalPath "/tmp/data" "a//b.txt" :=
  ⟨(canonicalize_collapse "/tmp/data" "a//b.txt").1 (by decide),
   (canonicalize_collapse "/tmp/data" "a//b.txt").2 (by decide) (by decide)⟩


/-- The transport loader emits no reload-observer events. -/
theorem loadEvents_no_reloaded (env : FileSystem) (f : SResourceFactory)
    (path original_name : String) :
    (LoadResource env f path original_name).2.2.2.filter Event.isReloaded = [] := by
  simp only [LoadResource, loadFallthrough, loadViaHttp, loadViaFile]
  repeat' split
  all_goals simp [Event.isReloaded]

/-- Observer-invocation events survive the observer filter unchanged. -/
theorem filter_reloaded_map (obs : List (Nat × Nat)) (name : String) :
    (obs.map (fun p => Event.reloaded p.1 p.2 name)).filter Event.isReloaded =
      obs.map (fun p => Event.reloaded p.1 p.2 name) := by
  induction obs with
  | nil => rfl
  | cons p rest ih => simp [Event.isReloaded, ih]

/-- C5 (amended): after a successful reload — and only then — the observers
run: the event trace of `ReloadResource` is the load trace followed by one
`Event.reloaded` per entry of the observer list, in the list's current
order, each carrying the caller's `name`; the observer-event subsequence of
the trace is exactly that list (each observer exactly once).  When the
recreate callback fails, no observer event is emitted.  Registrations alone
keep the list in registration order, but `UnregisterResourceReloadedCallback`
removes by erase-swap and can reorder it, so "current order" coincides with
registration order only until an unregistration (see
`observer_order_counterexample`). -/
theorem reload_observer_firing (hh : String → Nat) (env : FileSystem) (f : SResourceFactory)
    (name : String) (rd : SResourceDescriptor) (rt : SResourceType)
    (recreate : Nat → Bytes → Nat → String → CreateResult) (obs : List (Nat × Nat))
    (hrd : mget f.m_Resources (hh (GetCanonicalPath f.m_BasePath name)) = some rd)
    (hrt : f.m_ResourceTypes[rd.m_ResourceType]? = some rt)
    (hrec : rt.m_RecreateFunction = some recreate)
    (hobs : f.m_ResourceReloadedCallbacks = some obs)
    (hload : (LoadResource env f (GetCanonicalPath f.m_BasePath name) name).1 =
      FactoryResult.ok) :
    (recreate rt.m_Context
        (LoadResource env f (GetCanonicalPath f.m_BasePath name) name).2.2.1.m_StreamBuffer
        (LoadResource env f (GetCanonicalPath f.m_BasePath name) name).2.1 name =
          CreateResult.ok →
      (ReloadResource hh env f name).map (fun x => x.2.2.2) =
        some ((LoadResource env f (GetCanonicalPath f.m_BasePath name) name).2.2.2 ++
          obs.map (fun p => Event.reloaded p.1 p.2 name)) ∧
      (ReloadResource hh env f name).map (fun x => x.2.2.2.filter Event.isReloaded) =
        some (obs.map (fun p => Event.reloaded p.1 p.2 name))) ∧
    (recreate rt.m_Context
        (LoadResource env f (GetCanonicalPath f.m_BasePath name) name).2.2.1.m_StreamBuffer
        (LoadResource env f (GetCanonicalPath f.m_BasePath name) name).2.1 name ≠
          CreateResult.ok →
      (ReloadResource hh env f name).map (fun x => x.2.2.2.filter Event.isReloaded) =
        some []) := by
  constructor
  · intro hcres
    have htrace : (ReloadResource hh env f name).map (fun x => x.2.2.2) =
        some ((LoadResource env f (GetCanonicalPath f.m_BasePath name) name).2.2.2 ++
          obs.map (fun p => Event.reloaded p.1 p.2 name)) := by
      simp [ReloadResource, hrd, hrt, hrec, hload, hcres, hobs]
    refine ⟨htrace, ?_⟩
    simp [ReloadResource, hrd, hrt, hrec, hload, hcres, hobs,
      List.filter_append, loadEvents_no_reloaded, filter_reloaded_map]
  · intro hcres
    cases hcres2 : recreate rt.m_Context
        (LoadResource env f (GetCanonicalPath f.m_BasePath name) name).2.2.1.m_StreamBuffer
        (LoadResource env f (GetCanonicalPath f.m_BasePath name) name).2.1 name with
    | ok => exact absurd hcres2 hcres
    | out_of_memory =>
      simp [ReloadResource, hrd, hrt, hrec, hload, hcres2, loadEvents_no_reloaded]
    | format_error =>
      simp [ReloadResource, hrd, hrt, hrec, hload, hcres2, loadEvents_no_reloaded]
    | constant_error =>
      simp [ReloadResource, hrd, hrt, hrec, hload, hcres2, loadEvents_no_reloaded]
    | unknown =>
      simp [ReloadResource, hrd, hrt, hrec, hload, hcres2, loadEvents_no_reloaded]

/-- C5 witness: a successful reload at `fOB` (two observers) emits the load
event followed by the two observer invocations in registration order. -/
theorem reload_observer_firing_witness :
    (ReloadResource hh0 env0 fOB "a.txt").map (fun x => x.2.2.2) =
      some ((LoadResource env0 fOB (GetCanonicalPath fOB.m_BasePath "a.txt") "a.txt").2.2.2 ++
        [(1, 11), (2, 22)].map (fun p => Event.reloaded p.1 p.2 "a.txt")) ∧
    (ReloadResource hh0 env0 fOB "a.txt").map (fun x => x.2.2.2.filter Event.isReloaded) =
      some ([(1, 11), (2, 22)].map (fun p => Event.reloaded p.1 p.2 "a.txt")) :=
  (reload_observer_firing hh0 env0 fOB "a.txt" d0 rtR rec0 [(1, 11), (2, 22)]
    (by decide) rfl rfl rfl (by decide)).1 rfl


/-! ### Acquire/release steps (toward the intern-identity lifecycle) -/

/-- A `Get` that hits the intern table increments the reference count in
place and returns the stored address, with no events. -/
theorem get_hit (hh : String → Nat) (env : FileSystem) (f : SResourceFactory)
    (name : String) (rd : SResourceDescriptor)
    (hrd : mget f.m_Resources (hh (GetCanonicalPath f.m_BasePath name)) = some rd) :
    Get hh env f name = (.ok, rd.m_Resource,
      { f with m_Resources := mput f.m_Resources (hh (GetCanonicalPath f.m_BasePath name)) { rd with m_ReferenceCount := rd.m_ReferenceCount + 1 } }, []) := by
  simp [Get, hrd]

/-- A `Release` that leaves the reference count positive only decrements it,
with no events. -/
theorem release_dec (f : SResourceFactory) (resource h : Nat) (rd : SResourceDescriptor)
    (h1 : mget f.m_ResourceToHash resource = some h)
    (h2 : mget f.m_Resources h = some rd)
    (h3 : 2 ≤ rd.m_ReferenceCount) :
    Release f resource = some ({ f with m_Resources := mput f.m_Resources h { rd with m_ReferenceCount := rd.m_ReferenceCount - 1 } }, []) := by
  have e0 : ¬ rd.m_ReferenceCount = 0 := by omega
  have e1 : ¬ rd.m_ReferenceCount - 1 = 0 := by omega
  simp [Release, h1, h2, e0, e1]


/-- A fresh successful `Get` (miss, known extension, registered type,
successful load, successful create) interns the descriptor with reference
count 1. -/
theorem get_miss_create (hh : String → Nat) (env : FileSystem) (f₀ : SResourceFactory)
    (name : String) (extChars : List Char) (idx : Nat) (rt : SResourceType) (addr : Nat)
    (hmiss : mget f₀.m_Resources (hh (GetCanonicalPath f₀.m_BasePath name)) = none)
    (hext : afterLastDot name.data = some extChars)
    (hfind : FindResourceType f₀.m_ResourceTypes ⟨extChars⟩ = some (idx, rt))
    (hload : (LoadResource env f₀ (GetCanonicalPath f₀.m_BasePath name) name).1 =
      FactoryResult.ok)
    (hcreate : rt.m_CreateFunction rt.m_Context
        (LoadResource env f₀ (GetCanonicalPath f₀.m_BasePath name) name).2.2.1.m_StreamBuffer
        (LoadResource env f₀ (GetCanonicalPath f₀.m_BasePath name) name).2.1 name =
      (CreateResult.ok, addr)) :
    Get hh env f₀ name = (.ok, addr,
      internedState (LoadResource env f₀ (GetCanonicalPath f₀.m_BasePath name) name).2.2.1
        (hh (GetCanonicalPath f₀.m_BasePath name)) addr idx
        (GetCanonicalPath f₀.m_BasePath name) 1,
      (LoadResource env f₀ (GetCanonicalPath f₀.m_BasePath name) name).2.2.2) := by
  simp [Get, hmiss, hext, hfind, hload, hcreate, internedState]

/-- A `Get` on an interned state hits and bumps the reference count. -/
theorem get_hit_interned (hh : String → Nat) (env : FileSystem) (name : String)
    (f₁ : SResourceFactory) (h addr idx : Nat) (cp : String) (k : Nat)
    (hcp : GetCanonicalPath f₁.m_BasePath name = cp) (hhcp : hh cp = h) :
    Get hh env (internedState f₁ h addr idx cp k) name =
      (.ok, addr, internedState f₁ h addr idx cp (k + 1), []) := by
  have hrd : mget (internedState f₁ h addr idx cp k).m_Resources
      (hh (GetCanonicalPath (internedState f₁ h addr idx cp k).m_BasePath name)) =
      some ⟨h, addr, idx, k⟩ := by
    show mget (mput f₁.m_Resources h _) (hh (GetCanonicalPath f₁.m_BasePath name)) = _
    rw [hcp, hhcp]
    exact mget_mput_self _ _ _
  rw [get_hit hh env _ name _ hrd]
  simp only [internedState, hcp, hhcp]
  rw [mput_mput_self]

/-- Iterated `Get` on an interned state: `k` hits bump the count by `k` and
all return the same address. -/
theorem getN_interned (hh : String → Nat) (env : FileSystem) (name : String)
    (f₁ : SResourceFactory) (h addr idx : Nat) (cp : String)
    (hcp : GetCanonicalPath f₁.m_BasePath name = cp) (hhcp : hh cp = h) :
    ∀ (k j : Nat), getN hh env name k (internedState f₁ h addr idx cp j) =
      (internedState f₁ h addr idx cp (j + k), List.replicate k (FactoryResult.ok, addr)) := by
  intro k
  induction k with
  | zero => intro j; simp [getN]
  | succ k ih =>
    intro j
    simp only [getN]
    rw [get_hit_interned hh env name f₁ h addr idx cp j hcp hhcp]
    simp only []
    rw [ih (j + 1)]
    have e : j + 1 + k = j + (k + 1) := by omega
    rw [e, List.replicate_succ]

/-- `Release` on an interned state with count ≥ 2 just decrements. -/
theorem release_interned_step (f₁ : SResourceFactory) (h addr idx : Nat) (cp : String)
    (m : Nat) :
    Release (internedState f₁ h addr idx cp (m + 2)) addr =
      some (internedState f₁ h addr idx cp (m + 1), []) := by
  have h1 : mget (internedState f₁ h addr idx cp (m + 2)).m_ResourceToHash addr = some h :=
    mget_mput_self _ _ _
  have h2 : mget (internedState f₁ h addr idx cp (m + 2)).m_Resources h =
      some ⟨h, addr, idx, m + 2⟩ :=
    mget_mput_self _ _ _
  rw [release_dec _ addr h _ h1 h2 (Nat.le_add_left 2 m)]
  simp only [internedState]
  rw [mput_mput_self]
  have e : m + 2 - 1 = m + 1 := by omega
  rw [e]

/-- Iterated `Release` down to count `k + 1`, emitting no events. -/
theorem releaseN_interned (f₁ : SResourceFactory) (h addr idx : Nat) (cp : String) :
    ∀ (j k : Nat), releaseN addr j (internedState f₁ h addr idx cp (j + k + 1)) =
      some (internedState f₁ h addr idx cp (k + 1), []) := by
  intro j
  induction j with
  | zero => intro k; simp [releaseN]
  | succ j ih =>
    intro k
    simp only [releaseN]
    have e : j + 1 + k + 1 = j + k + 2 := by omega
    rw [e, release_interned_step]
    simp only []
    rw [ih k]
    rfl


/-- The final `Release` (count 1): the destroy callback fires once and the
entry disappears from all three tables. -/
theorem release_interned_last (f₁ : SResourceFactory) (h addr idx : Nat) (cp : String)
    (hres : mget f₁.m_Resources h = none)
    (hth : mget f₁.m_ResourceToHash addr = none)
    (hfn : ∀ tbl, f₁.m_ResourceHashToFilename = some tbl → mget tbl h = none) :
    ∃ fB, Release (internedState f₁ h addr idx cp 1) addr =
        some (fB, [Event.destroy h addr]) ∧
      mget fB.m_Resources h = none ∧
      mget fB.m_ResourceToHash addr = none ∧
      filenameFresh fB h = true := by
  have her : merase (mput f₁.m_Resources h ⟨h, addr, idx, 1⟩) h = f₁.m_Resources :=
    merase_mput_fresh _ _ _ hres
  have het : merase (mput f₁.m_ResourceToHash addr h) addr = f₁.m_ResourceToHash :=
    merase_mput_fresh _ _ _ hth
  cases hopt : f₁.m_ResourceHashToFilename with
  | none =>
    refine ⟨{ internedState f₁ h addr idx cp 1 with
              m_ResourceToHash := f₁.m_ResourceToHash,
              m_Resources := f₁.m_Resources }, ?_, ?_, ?_, ?_⟩
    · simp [Release, internedState, mget_mput_self, hopt, her, het]
    · exact hres
    · exact hth
    · simp [filenameFresh, internedState, hopt]
  | some tbl =>
    have hfn' : mget tbl h = none := hfn tbl hopt
    have hft : merase (mput tbl h cp) h = tbl := merase_mput_fresh _ _ _ hfn'
    refine ⟨{ internedState f₁ h addr idx cp 1 with
              m_ResourceToHash := f₁.m_ResourceToHash,
              m_Resources := f₁.m_Resources,
              m_ResourceHashToFilename := some tbl }, ?_, ?_, ?_, ?_⟩
    · simp [Release, internedState, mget_mput_self, hopt, her, het, hft]
    · exact hres
    · exact hth
    · simp [filenameFresh, hfn']


/-- C1: intern identity lifecycle.  For a canonical name whose first
`acquire` succeeds as a fresh load (table miss, known extension, registered
type, successful load and create installing a fresh address), `N` calls to
`Get` all return Ok with the same resource address and leave the descriptor
at reference count `N`; `N - 1` releases of that handle emit no event, and
the `N`-th fires the handler's destroy callback exactly once and leaves
`by_hash`, `by_address` and `hash_to_filename` with no entry for the
name. -/
theorem intern_identity_lifecycle
    (hh : String → Nat) (env : FileSystem) (f₀ : SResourceFactory) (name : String)
    (N : Nat) (extChars : List Char) (idx : Nat) (rt : SResourceType) (addr : Nat)
    (hN : 1 ≤ N)
    (hmiss : mget f₀.m_Resources (hh (GetCanonicalPath f₀.m_BasePath name)) = none)
    (hext : afterLastDot name.data = some extChars)
    (hfind : FindResourceType f₀.m_ResourceTypes ⟨extChars⟩ = some (idx, rt))
    (hload : (LoadResource env f₀ (GetCanonicalPath f₀.m_BasePath name) name).1 =
      FactoryResult.ok)
    (hcreate : rt.m_CreateFunction rt.m_Context
        (LoadResource env f₀ (GetCanonicalPath f₀.m_BasePath name) name).2.2.1.m_StreamBuffer
        (LoadResource env f₀ (GetCanonicalPath f₀.m_BasePath name) name).2.1 name =
      (CreateResult.ok, addr))
    (haddr : mget f₀.m_ResourceToHash addr = none)
    (hfn : filenameFresh f₀ (hh (GetCanonicalPath f₀.m_BasePath name)) = true) :
    (getN hh env name N f₀).2 = List.replicate N (FactoryResult.ok, addr) ∧
    mget (getN hh env name N f₀).1.m_Resources (hh (GetCanonicalPath f₀.m_BasePath name)) =
      some ⟨hh (GetCanonicalPath f₀.m_BasePath name), addr, idx, N⟩ ∧
    ∃ fMid fB,
      releaseN addr (N - 1) (getN hh env name N f₀).1 = some (fMid, []) ∧
      Release fMid addr =
        some (fB, [Event.destroy (hh (GetCanonicalPath f₀.m_BasePath name)) addr]) ∧
      mget fB.m_Resources (hh (GetCanonicalPath f₀.m_BasePath name)) = none ∧
      mget fB.m_ResourceToHash addr = none ∧
      filenameFresh fB (hh (GetCanonicalPath f₀.m_BasePath name)) = true := by
  obtain ⟨m, rfl⟩ : ∃ m, N = m + 1 := ⟨N - 1, by omega⟩
  have hcp1 : GetCanonicalPath
      (LoadResource env f₀ (GetCanonicalPath f₀.m_BasePath name) name).2.2.1.m_BasePath name =
      GetCanonicalPath f₀.m_BasePath name := by
    rw [basePath_LoadResource]
  have hres1 : mget
      (LoadResource env f₀ (GetCanonicalPath f₀.m_BasePath name) name).2.2.1.m_Resources
      (hh (GetCanonicalPath f₀.m_BasePath name)) = none := by
    rw [resources_LoadResource]
    exact hmiss
  have hth1 : mget
      (LoadResource env f₀ (GetCanonicalPath f₀.m_BasePath name) name).2.2.1.m_ResourceToHash
      addr = none := by
    rw [toHash_LoadResource]
    exact haddr
  have hfn1 : ∀ tbl,
      (LoadResource env f₀ (GetCanonicalPath f₀.m_BasePath name) name).2.2.1.m_ResourceHashToFilename =
        some tbl →
      mget tbl (hh (GetCanonicalPath f₀.m_BasePath name)) = none := by
    intro tbl htbl
    rw [filename_LoadResource] at htbl
    unfold filenameFresh at hfn
    rw [htbl] at hfn
    simpa using hfn
  have hget1 := get_miss_create hh env f₀ name extChars idx rt addr
    hmiss hext hfind hload hcreate
  have hgN : getN hh env name (m + 1) f₀ =
      (internedState (LoadResource env f₀ (GetCanonicalPath f₀.m_BasePath name) name).2.2.1
        (hh (GetCanonicalPath f₀.m_BasePath name)) addr idx
        (GetCanonicalPath f₀.m_BasePath name) (m + 1),
       List.replicate (m + 1) (FactoryResult.ok, addr)) := by
    simp only [getN, hget1]
    rw [getN_interned hh env name _ _ addr idx _ hcp1 rfl m 1]
    have e : 1 + m = m + 1 := by omega
    rw [e, List.replicate_succ]
  rw [hgN]
  refine ⟨rfl, mget_mput_self _ _ _, ?_⟩
  have em : m + 1 - 1 = m := by omega
  rw [em]
  obtain ⟨fB, hB1, hB2, hB3, hB4⟩ :=
    release_interned_last
      (LoadResource env f₀ (GetCanonicalPath f₀.m_BasePath name) name).2.2.1
      (hh (GetCanonicalPath f₀.m_BasePath name)) addr idx
      (GetCanonicalPath f₀.m_BasePath name) hres1 hth1 hfn1
  refine ⟨_, fB, ?_, hB1, hB2, hB3, hB4⟩
  have hrn := releaseN_interned
    (LoadResource env f₀ (GetCanonicalPath f₀.m_BasePath name) name).2.2.1
    (hh (GetCanonicalPath f₀.m_BasePath name)) addr idx
    (GetCanonicalPath f₀.m_BasePath name) m 0
  simpa using hrn


/-- C1 witness: two acquires of `a.txt` on `f0` both return address 7 and
leave the count at 2; the two releases emit exactly one destroy event (on
the second) and empty all three tables of the entry. -/
theorem intern_identity_lifecycle_witness :
    ((getN hh0 env0 "a.txt" 2 f0).2 = List.replicate 2 (FactoryResult.ok, 7) ∧
     mget (getN hh0 env0 "a.txt" 2 f0).1.m_Resources
        (hh0 (GetCanonicalPath f0.m_BasePath "a.txt")) =
      some ⟨hh0 (GetCanonicalPath f0.m_BasePath "a.txt"), 7, 0, 2⟩) ∧
    (releaseN 7 1 (getN hh0 env0 "a.txt" 2 f0).1).map (fun fe => fe.2) = some [] ∧
    (releaseN 7 2 (getN hh0 env0 "a.txt" 2 f0).1).map (fun fe => fe.2) =
      some [Event.destroy 15 7] ∧
    (releaseN 7 2 (getN hh0 env0 "a.txt" 2 f0).1).map
        (fun fe => (mget fe.1.m_Resources 15, mget fe.1.m_ResourceToHash 7,
          filenameFresh fe.1 15)) =
      some (none, none, true) := by
  have H := intern_identity_lifecycle hh0 env0 f0 "a.txt" 2 "txt".data 0 rt0 7
    (by decide) (by decide) (by decide) rfl (by decide) (by decide) (by decide) (by decide)
  exact ⟨⟨H.1, H.2.1⟩, by decide, by decide, by decide⟩

/-- C5 counterexample: register observers `(1,11)`, `(2,22)`, `(3,33)` in
that order, then unregister `(1,11)`.  Erase-swap moves `(3,33)` into the
freed first slot, so a successful reload invokes `(3,33)` before `(2,22)` —
not registration order, in which `(2,22)` precedes `(3,33)`. -/
theorem observer_order_counterexample :
    fOB3.m_ResourceReloadedCallbacks = some [(1, 11), (2, 22), (3, 33)] ∧
    (UnregisterResourceReloadedCallback fOB3 1 11).m_ResourceReloadedCallbacks =
      some [(3, 33), (2, 22)] ∧
    (ReloadResource hh0 env0 (UnregisterResourceReloadedCallback fOB3 1 11) "a.txt").map
        (fun x => x.2.2.2.filter Event.isReloaded) =
      some [Event.reloaded 3 33 "a.txt", Event.reloaded 2 22 "a.txt"] ∧
    [Event.reloaded 3 33 "a.txt", Event.reloaded 2 22 "a.txt"] ≠
      [Event.reloaded 2 22 "a.txt", Event.reloaded 3 33 "a.txt"] :=
  ⟨by decide, by decide, by decide, by decide⟩

end DefoldResource
